import Mathlib

/-!
Verification development for the AI-Thesis-Formatter core
(`app/engines/template_detector.py`, `app/engines/format_applier.py`,
`app/models/schemas.py`, `app/adapters/ai_classifier.py`).

The Python code is shallowly embedded: python-docx documents become lists of
paragraph/run records carrying exactly the attributes the code reads or
writes; Python floats become `Rat` (exact rationals; the embedding is faithful
on decimal-representable inputs); regular-expression prefix matches become
executable character-list matchers whose deterministic translation is noted at
each definition.  Fallible network calls of the AI adapter are abstracted as
an oracle producing, per call, either the parsed JSON label items or the
error-message string of the raised exception — the control flow around the
oracle follows `ParagraphAIClassifier.classify` line by line.
-/

set_option maxRecDepth 8192

namespace ThesisFormatter

/-! ## Basic helpers -/

/-- Python `min` on two rationals (kernel-computable). -/
def minQ (a b : Rat) : Rat := if a ≤ b then a else b

/-- Python `max` on two rationals (kernel-computable). -/
def maxQ (a b : Rat) : Rat := if a ≤ b then b else a

/-- Clamp `x` into `[lo, hi]`, mirroring Python `max(lo, min(x, hi))`. -/
def clampQ (lo hi x : Rat) : Rat := maxQ lo (minQ x hi)

/-- ASCII lower-casing of one character, mirroring what `re.IGNORECASE`
does on the ASCII letters that appear in the classifier patterns. -/
def lowerChar (c : Char) : Char :=
  if 'A' ≤ c ∧ c ≤ 'Z' then Char.ofNat (c.toNat + 32) else c

/-- ASCII upper-casing of one character, for Python `str.upper()` on the
ASCII field-instruction strings. -/
def upperChar (c : Char) : Char :=
  if 'a' ≤ c ∧ c ≤ 'z' then Char.ofNat (c.toNat - 32) else c

def lowerStr (s : String) : List Char := s.data.map lowerChar

def upperStr (s : String) : List Char := s.data.map upperChar

/-- Decidable substring test (Python `needle in hay`). -/
def hasSub (needle hay : List Char) : Bool :=
  (List.range (hay.length + 1)).any (fun i => needle.isPrefixOf (hay.drop i))

/-- Round-half-to-even on an exact rational, the tie-breaking rule Python
`round` uses (exact on decimal-representable doubles). -/
def halfEven (q : Rat) : Int :=
  let f : Int := q.floor
  let r : Rat := q - (f : Rat)
  if r < 1/2 then f
  else if 1/2 < r then f + 1
  else if f % 2 = 0 then f else f + 1

/-- Ten to a natural power, as a rational (kernel-computable). -/
def pow10 : Nat → Rat
  | 0 => 1
  | n + 1 => 10 * pow10 n

/-- Python `round(x, d)` for `d` decimal places, on exact rationals. -/
def roundDp (d : Nat) (q : Rat) : Rat :=
  ((halfEven (q * pow10 d) : Rat)) / pow10 d

/-- Insertion into a sorted list of rationals. -/
def insertSorted (x : Rat) : List Rat → List Rat
  | [] => [x]
  | y :: ys => if x ≤ y then x :: y :: ys else y :: insertSorted x ys

/-- Sorting used by `statistics.median`. -/
def sortRats (l : List Rat) : List Rat := l.foldr insertSorted []

/-- TemplateDetector._median: `statistics.median` of the values, or the
default when the list is empty (`statistics.median` sorts and, for an even
count, averages the two middle values). -/
def medianQ (values : List Rat) (default : Rat) : Rat :=
  match values with
  | [] => default
  | _ =>
    let s := sortRats values
    let n := s.length
    if n % 2 = 1 then ((s.get? (n / 2)).getD default)
    else (((s.get? (n / 2 - 1)).getD default) + ((s.get? (n / 2)).getD default)) / 2

/-- First-occurrence deduplication (insertion-order iteration of a Python
set/`Counter`). -/
def dedupKeep {α : Type} [DecidableEq α] : List α → List α
  | [] => []
  | x :: xs => x :: dedupKeep (xs.filter (fun y => y ≠ x))
termination_by l => l.length
decreasing_by
  simp only [List.length_cons]
  exact Nat.lt_succ_of_le (List.length_filter_le _ _)

/-- TemplateDetector._mode: most frequent non-empty value, ties broken by
first encounter (`Counter.most_common` is insertion-order stable). -/
def modeStr (values : List String) (default : String) : String :=
  let f := values.filter (fun s => s ≠ "")
  match f with
  | [] => default
  | x :: _ =>
    (dedupKeep f).foldl (fun best s => if f.count s > f.count best then s else best) x

/-- ParagraphAIClassifier._chunk: `items[i:i+size]` slices.  For the
`size = 0` case Python would raise in `range`; `from_overrides` forces
`size ≥ 1`, and the embedding is only used with positive sizes. -/
def chunkList {α : Type} (size : Nat) : List α → List (List α)
  | [] => []
  | x :: xs => (x :: xs.take (size - 1)) :: chunkList size (xs.drop (size - 1))
termination_by l => l.length
decreasing_by
  simp only [List.length_cons, List.length_drop]
  omega

/-- Digit-string value, for Python `int(start)` after `start.isdigit()`. -/
def digitsVal (l : List Char) : Nat :=
  l.foldl (fun acc c => acc * 10 + (c.toNat - '0'.toNat)) 0

def isDigitsStr (s : String) : Bool :=
  s.data ≠ [] && s.data.all Char.isDigit

/-! ## Document model

python-docx objects carry many attributes; the embedding records exactly the
ones the detector and applier read or write.  `Option` encodes Python `None`
(an absent attribute / XML node). -/

/-- Paragraph alignment enum (`WD_ALIGN_PARAGRAPH` members the code uses). -/
inductive PAlign : Type
  | left | center | right | justify | distribute
deriving DecidableEq, Repr

/-- A paragraph line-spacing value as python-docx returns it: a `float`
multiple, or a `Length` (an `int` subclass, hit by the code's
`isinstance(value, int)` branch).  `None` is `Option.none` at the use site. -/
inductive LSVal : Type
  | flt (q : Rat)
  | intLen (n : Int)
deriving DecidableEq, Repr

/-- One run.  `text` is the concatenated `w:t` content; `hasBreak` records a
`w:br` child (whose python-docx `Run.text` contribution is a newline);
`instr` records a `w:instrText` child (not part of `Run.text`). -/
structure Run where
  text : String := ""
  fontName : Option String := none
  size : Option Rat := none
  bold : Option Bool := none
  italic : Option Bool := none
  eastAsia : Option String := none
  asciiFont : Option String := none
  hAnsiFont : Option String := none
  instr : Option String := none
  hasBreak : Bool := false
deriving DecidableEq, Repr

/-- python-docx `Run.text`: `w:t` text plus a newline per `w:br`. -/
def runText (r : Run) : String :=
  r.text ++ (if r.hasBreak then "\n" else "")

/-- The `style.font` attributes the detector's fallbacks read. -/
structure StyleFont where
  name : Option String := none
  size : Option Rat := none
  bold : Option Bool := none
  italic : Option Bool := none
deriving DecidableEq, Repr

/-- One body paragraph. -/
structure Para where
  runs : List Run := []
  alignment : Option PAlign := none
  lineSpacing : Option LSVal := none
  spaceBefore : Option Rat := none
  spaceAfter : Option Rat := none
  firstLineIndent : Option Rat := none
  numbered : Bool := false
  styleName : String := ""
  styleFont : Option StyleFont := none
deriving DecidableEq, Repr

/-- python-docx `Paragraph.text`: concatenation of the run texts. -/
def paraText (p : Para) : String :=
  String.join (p.runs.map runText)

/-- One document section: page-setup lengths, the `w:pgNumType` node
(`hasPgNum` = node present, `pgFmt`/`pgStart` its attributes) and the footer
paragraphs. -/
structure DocSection where
  pageWidth : Option Rat := none
  pageHeight : Option Rat := none
  marginTop : Option Rat := none
  marginBottom : Option Rat := none
  marginLeft : Option Rat := none
  marginRight : Option Rat := none
  headerDistance : Option Rat := none
  footerDistance : Option Rat := none
  gutter : Option Rat := none
  hasPgNum : Bool := false
  pgFmt : Option String := none
  pgStart : Option String := none
  footer : List Para := []
deriving DecidableEq, Repr

/-- A document: body paragraphs plus sections. -/
structure Doc where
  paragraphs : List Para := []
  sections : List DocSection := []
deriving DecidableEq, Repr

/-! ## Classifier pattern matchers

Each definition translates one compiled regex (shared verbatim between
`template_detector.py` and `format_applier.py`) as a prefix matcher on char
lists (`re.match` anchors at the start only).  All the character classes
involved are disjoint from the closing literals, so the greedy translation is
exact. -/

/-- Characters of the class `[一二三四五六七八九十百千\d]` in
`CHAPTER_RE`/`SECTION_RE` (`\d` modelled as ASCII digits, the digits these
documents contain). -/
def isCjkNumChar (c : Char) : Bool :=
  c.isDigit || c = '一' || c = '二' || c = '三' || c = '四' || c = '五' ||
    c = '六' || c = '七' || c = '八' || c = '九' || c = '十' || c = '百' || c = '千'

/-- Whitespace characters `\s` matches on the texts at hand. -/
def isSpaceChar (c : Char) : Bool :=
  c = ' ' || c = '\t' || c = '\n' || c = '\r' || c = '\x0c' || c = '\x0b' ||
    c = '　'

/-- Helper for `\s*\d+`: skip spaces, then require a digit. -/
def spacesThenDigit (l : List Char) : Bool :=
  ((l.dropWhile isSpaceChar).head?.map Char.isDigit).getD false

/-- CHAPTER_RE `^第[一二三四五六七八九十百千\d]+章` (prefix match; `章` is
not in the character class, so the greedy reading is exact). -/
def chapterMatch (s : String) : Bool :=
  decide (s.data.head? = some '第') &&
    decide (s.data.tail.takeWhile isCjkNumChar ≠ []) &&
    decide ((s.data.tail.dropWhile isCjkNumChar).head? = some '章')

/-- SECTION_RE `^第[一二三四五六七八九十百千\d]+節` (prefix match). -/
def sectionMatch (s : String) : Bool :=
  decide (s.data.head? = some '第') &&
    decide (s.data.tail.takeWhile isCjkNumChar ≠ []) &&
    decide ((s.data.tail.dropWhile isCjkNumChar).head? = some '節')

/-- SUBSECTION_RE `^\d+(?:\.\d+)+` (prefix match: digits, a dot, and at
least one more digit suffice, further groups extend the same prefix). -/
def subsectionMatch (s : String) : Bool :=
  decide (s.data.takeWhile Char.isDigit ≠ []) &&
    (let r := s.data.dropWhile Char.isDigit
     decide (r.head? = some '.') && ((r.tail.head?.map Char.isDigit).getD false))

/-- FIGURE_RE `^(圖|Figure)\s*\d+` with IGNORECASE (prefix match). -/
def figureMatch (s : String) : Bool :=
  (decide ((lowerStr s).head? = some '圖') && spacesThenDigit (lowerStr s).tail) ||
    ("figure".data.isPrefixOf (lowerStr s) && spacesThenDigit ((lowerStr s).drop 6))

/-- TABLE_RE `^(表|Table)\s*\d+` with IGNORECASE (prefix match). -/
def tableMatch (s : String) : Bool :=
  (decide ((lowerStr s).head? = some '表') && spacesThenDigit (lowerStr s).tail) ||
    ("table".data.isPrefixOf (lowerStr s) && spacesThenDigit ((lowerStr s).drop 5))

/-- The applier's TOC_RE `^(目錄|table of contents|圖目錄|表目錄)$` with
IGNORECASE (a full match on the stripped text). -/
def tocMatchApplier (s : String) : Bool :=
  lowerStr s = "目錄".data || lowerStr s = "table of contents".data ||
    lowerStr s = "圖目錄".data || lowerStr s = "表目錄".data

/-- The detector's TOC_RE `^(目錄|table of contents)$` with IGNORECASE. -/
def tocMatchDetector (s : String) : Bool :=
  lowerStr s = "目錄".data || lowerStr s = "table of contents".data

/-- ABSTRACT_RE `^(摘要|abstract)$` with IGNORECASE. -/
def abstractMatch (s : String) : Bool :=
  lowerStr s = "摘要".data || lowerStr s = "abstract".data

/-- Helper for `\s*[:：]`: skip spaces, then require a colon. -/
def spacesThenColon (l : List Char) : Bool :=
  let r := l.dropWhile isSpaceChar
  decide (r.head? = some ':') || decide (r.head? = some '：')

/-- KEYWORDS_RE `^(關鍵詞|keywords)\s*[:：]` with IGNORECASE (prefix
match). -/
def keywordsMatch (s : String) : Bool :=
  ("關鍵詞".data.isPrefixOf (lowerStr s) && spacesThenColon ((lowerStr s).drop 3)) ||
    ("keywords".data.isPrefixOf (lowerStr s) && spacesThenColon ((lowerStr s).drop 8))

/-! ## Shared schema (`app/models/schemas.py`) -/

/-- REQUIRED_FONT_NAME. -/
def requiredFontName : String := "標楷體"

/-- GROUP_KEYS, the nine canonical group keys in declaration order. -/
def groupKeys : List String :=
  ["cover", "front_matter", "chapter_title", "section_title",
   "subsection_title", "body", "figure_caption", "table_caption", "toc"]

/-- ParagraphRule, after pydantic validation. -/
structure ParagraphRule where
  fontName : String := requiredFontName
  fontSizePt : Rat := 12
  bold : Bool := false
  italic : Bool := false
  alignment : String := "justify"
  lineSpacing : Rat := 3/2
  spaceBeforePt : Rat := 0
  spaceAfterPt : Rat := 0
  firstLineIndentPt : Rat := 0
deriving DecidableEq, Repr

/-- Construct a ParagraphRule the way pydantic does: the `font_size_pt`
and `line_spacing` field validators clamp, and `enforce_required_font`
(a before-mode validator) discards the supplied font name. -/
def mkParagraphRule (_fontName : String) (fontSizePt : Rat) (bold italic : Bool)
    (alignment : String) (lineSpacing spaceBeforePt spaceAfterPt firstLineIndentPt : Rat) :
    ParagraphRule :=
  { fontName := requiredFontName
    fontSizePt := clampQ 8 36 fontSizePt
    bold := bold
    italic := italic
    alignment := alignment
    lineSpacing := clampQ 1 3 lineSpacing
    spaceBeforePt := spaceBeforePt
    spaceAfterPt := spaceAfterPt
    firstLineIndentPt := firstLineIndentPt }

/-- A ParagraphRule built from the schema's per-field defaults (what
`ParagraphRule()` yields). -/
def defaultParagraphRule : ParagraphRule := {}

/-- PageRule (no validators). -/
structure PageRule where
  pageWidthPt : Rat := 5953/10
  pageHeightPt : Rat := 8419/10
  marginTopPt : Rat := 72
  marginBottomPt : Rat := 72
  marginLeftPt : Rat := 72
  marginRightPt : Rat := 72
  headerDistancePt : Rat := 36
  footerDistancePt : Rat := 36
  gutterPt : Rat := 0
  pageNumberFormat : String := "decimal"
  pageNumberStart : Nat := 1
deriving DecidableEq, Repr

/-- The default `groups` mapping of `RuleSet` (insertion order of the
`default_factory` dict). -/
def defaultGroups : List (String × ParagraphRule) :=
  [("cover", mkParagraphRule requiredFontName 16 true false "center" 1 0 0 0),
   ("front_matter", mkParagraphRule requiredFontName 12 false false "justify" (3/2) 0 0 24),
   ("chapter_title", mkParagraphRule requiredFontName 16 true false "center" (3/2) 0 0 0),
   ("section_title", mkParagraphRule requiredFontName 14 true false "center" (3/2) 0 0 0),
   ("subsection_title", mkParagraphRule requiredFontName 12 true false "left" (3/2) 0 0 0),
   ("body", mkParagraphRule requiredFontName 12 false false "justify" (3/2) 0 0 24),
   ("figure_caption", mkParagraphRule requiredFontName 11 false false "center" (6/5) 0 0 0),
   ("table_caption", mkParagraphRule requiredFontName 11 false false "center" (6/5) 0 0 0),
   ("toc", mkParagraphRule requiredFontName 14 true false "center" 1 0 0 0)]

/-- RuleSet.ensure_group_keys: `setdefault` each canonical key (a missing
key is appended with a default rule; present keys are untouched). -/
def ensureGroupKeys (groups : List (String × ParagraphRule)) :
    List (String × ParagraphRule) :=
  groupKeys.foldl
    (fun acc k => if (acc.lookup k).isSome then acc else acc ++ [(k, defaultParagraphRule)])
    groups

/-- RuleSet after pydantic validation. -/
structure RuleSet where
  version : String := "1.0"
  templateId : Option String := none
  templateName : String := ""
  page : PageRule := {}
  groups : List (String × ParagraphRule) := ensureGroupKeys defaultGroups
  detectionNotes : List String := []
deriving DecidableEq, Repr

/-- Construct a RuleSet the way pydantic does (the `groups` validator
fills in missing canonical keys). -/
def mkRuleSet (templateId : Option String) (templateName : String)
    (page : PageRule) (groups : List (String × ParagraphRule))
    (notes : List String) : RuleSet :=
  { version := "1.0"
    templateId := templateId
    templateName := templateName
    page := page
    groups := ensureGroupKeys groups
    detectionNotes := notes }

/-- The default RuleSet `RuleSet()` used by the repository's tests. -/
def defaultRuleSet : RuleSet := {}

/-! ## Template detector (`app/engines/template_detector.py`) -/

namespace TemplateDetector

/-- ParagraphSnapshot (detector-internal dataclass). -/
structure Snapshot where
  index : Nat
  text : String
  fontName : String
  fontSizePt : Rat
  bold : Bool
  italic : Bool
  alignment : String
  lineSpacing : Rat
  spaceBeforePt : Rat
  spaceAfterPt : Rat
  firstLineIndentPt : Rat
  isNumbered : Bool
deriving DecidableEq, Repr

/-- TemplateDetector._first_meaningful_run: the first run whose text has
non-whitespace content. -/
def firstMeaningfulRun (p : Para) : Option Run :=
  p.runs.find? (fun r => (runText r).trim ≠ "")

/-- TemplateDetector._extract_font_name: `run.font.name`, else the
`rFonts` `eastAsia` attribute, else its `ascii` attribute. -/
def extractFontName (r : Run) : Option String :=
  match r.fontName with
  | some n => some n
  | none =>
    match r.eastAsia with
    | some n => some n
    | none => r.asciiFont

/-- TemplateDetector._alignment_name. -/
def alignmentName : Option PAlign → String
  | some .center => "center"
  | some .right => "right"
  | some .justify => "justify"
  | some .distribute => "justify"
  | _ => "left"

/-- TemplateDetector._length_to_pt: a `Length` yields its `pt` value, `None`
the default (the defensive `float()` branch is unreachable for the
`Length`-or-`None` attributes the code reads). -/
def lengthToPt (length : Option Rat) (default : Rat) : Rat :=
  length.getD default

/-- TemplateDetector._line_spacing_value.  python-docx returns a `float`
multiple, a `Length` (an `int` subclass, so it hits the `isinstance(value,
int)` branch), or `None`; the dead `hasattr(value, "pt")` fallback has no
constructor here. -/
def lineSpacingValue (ls : Option LSVal) (fontSizePt : Rat) : Rat :=
  match ls with
  | none => 3/2
  | some (.flt q) => q
  | some (.intLen n) =>
    if n ≤ 10 then (n : Rat)
    else
      let baseline := if fontSizePt > 0 then fontSizePt else 12
      clampQ 1 3 ((n : Rat) / baseline)

/-- TemplateDetector._snapshot_paragraph. -/
def snapshotParagraph (p : Para) (index : Nat) : Snapshot :=
  let run := firstMeaningfulRun p
  let fontName0 : String :=
    match run with
    | some r => (extractFontName r).getD ""
    | none => ""
  let fontSize0 : Rat :=
    match run with
    | some r => (r.size).getD 12
    | none => 12
  let bold0 : Bool :=
    match run with
    | some r => (r.bold).getD false
    | none => false
  let italic0 : Bool :=
    match run with
    | some r => (r.italic).getD false
    | none => false
  let fontName1 : String :=
    if fontName0 = "" then
      match p.styleFont with
      | some sf => (sf.name).getD ""
      | none => ""
    else fontName0
  let fontSize1 : Rat :=
    match p.styleFont with
    | some sf =>
      match sf.size with
      | some q =>
        if run = none ∨ (run.bind Run.size) = none then q else fontSize0
      | none => fontSize0
    | none => fontSize0
  let bold1 : Bool :=
    match p.styleFont, run with
    | some sf, none => (sf.bold).getD false
    | _, _ => bold0
  let italic1 : Bool :=
    match p.styleFont, run with
    | some sf, none => (sf.italic).getD false
    | _, _ => italic0
  { index := index
    text := (paraText p).trim
    fontName := if fontName1 = "" then requiredFontName else fontName1
    fontSizePt := clampQ 8 36 fontSize1
    bold := bold1
    italic := italic1
    alignment := alignmentName p.alignment
    lineSpacing := clampQ 1 3 (lineSpacingValue p.lineSpacing fontSize1)
    spaceBeforePt := clampQ (-24) 120 (lengthToPt p.spaceBefore 0)
    spaceAfterPt := clampQ (-24) 120 (lengthToPt p.spaceAfter 0)
    firstLineIndentPt := clampQ (-36) 72 (lengthToPt p.firstLineIndent 0)
    isNumbered := p.numbered }

/-- TemplateDetector._classify. -/
def classify (s : Snapshot) : String :=
  if tocMatchDetector s.text ∨ s.text = "圖目錄" ∨ s.text = "表目錄" then "toc"
  else if figureMatch s.text then "figure_caption"
  else if tableMatch s.text then "table_caption"
  else if chapterMatch s.text then "chapter_title"
  else if sectionMatch s.text then "section_title"
  else if subsectionMatch s.text ∨ (s.isNumbered ∧ s.text.length < 80) then "subsection_title"
  else if abstractMatch s.text ∨ keywordsMatch s.text then "front_matter"
  else if s.index < 25 ∧ s.alignment = "center" ∧ (s.bold ∨ s.fontSizePt ≥ 14) then "cover"
  else if s.index < 35 ∧ s.alignment = "center" then "front_matter"
  else "body"

/-- The `ratio >= 0.5` majority vote on `n` positives out of `total`
samples, in exact rational arithmetic (`0/0 = 0` standing in for the
unreachable empty case, which would divide by zero in Python). -/
def majorityRatio (n total : Nat) : Bool :=
  ((n : Rat) / (total : Rat)) ≥ 1/2

/-- TemplateDetector._aggregate_rule.  The sample list is never empty at the
call sites (the `body` fallback guarantees it). -/
def aggregateRule (samples : List Snapshot) : ParagraphRule :=
  let alignment := modeStr (samples.map Snapshot.alignment) "justify"
  let fontSize := medianQ (samples.map Snapshot.fontSizePt) 12
  let lineSpacing := medianQ (samples.map Snapshot.lineSpacing) (3/2)
  let spaceBefore := medianQ (samples.map Snapshot.spaceBeforePt) 0
  let spaceAfter := medianQ (samples.map Snapshot.spaceAfterPt) 0
  let firstIndent := medianQ (samples.map Snapshot.firstLineIndentPt) 0
  mkParagraphRule requiredFontName (roundDp 1 fontSize)
    (majorityRatio (samples.filter Snapshot.bold).length samples.length)
    (majorityRatio (samples.filter Snapshot.italic).length samples.length)
    alignment (roundDp 2 lineSpacing) (roundDp 1 spaceBefore) (roundDp 1 spaceAfter)
    (roundDp 1 firstIndent)

/-- TemplateDetector._extract_page_rule on `document.sections[0]`
(python-docx guarantees at least one section; an absent section yields the
schema defaults, which is what an all-`None` section produces anyway). -/
def extractPageRule (d : Doc) : PageRule :=
  match d.sections.head? with
  | none => {}
  | some s =>
    let fmt0 : Option String := if s.hasPgNum then s.pgFmt else none
    let pageNumberFormat : String :=
      match fmt0 with
      | some f =>
        if f = "decimal" ∨ f = "upperRoman" ∨ f = "lowerRoman" then f else "decimal"
      | none => "decimal"
    let pageNumberStart : Nat :=
      match (if s.hasPgNum then s.pgStart else none) with
      | some t => if isDigitsStr t then digitsVal t.data else 1
      | none => 1
    { pageWidthPt := lengthToPt s.pageWidth (5953/10)
      pageHeightPt := lengthToPt s.pageHeight (8419/10)
      marginTopPt := lengthToPt s.marginTop 72
      marginBottomPt := lengthToPt s.marginBottom 72
      marginLeftPt := lengthToPt s.marginLeft 72
      marginRightPt := lengthToPt s.marginRight 72
      headerDistancePt := lengthToPt s.headerDistance 36
      footerDistancePt := lengthToPt s.footerDistance 36
      gutterPt := lengthToPt s.gutter 0
      pageNumberFormat := pageNumberFormat
      pageNumberStart := pageNumberStart }

/-- The snapshots of the non-empty paragraphs, in order, indexed by their
position in `document.paragraphs`. -/
def snapshotsFrom (i : Nat) : List Para → List Snapshot
  | [] => []
  | p :: ps =>
    if (paraText p).trim = "" then snapshotsFrom (i + 1) ps
    else snapshotParagraph p i :: snapshotsFrom (i + 1) ps

/-- The conservative fallback snapshot used when no `body` sample was
found. -/
def fallbackSnapshot : Snapshot :=
  { index := 0, text := "", fontName := requiredFontName, fontSizePt := 12,
    bold := false, italic := false, alignment := "justify", lineSpacing := 3/2,
    spaceBeforePt := 0, spaceAfterPt := 0, firstLineIndentPt := 24,
    isNumbered := false }

/-- GROUP_LABELS, used only inside detection notes. -/
def groupLabel (k : String) : String :=
  if k = "cover" then "封面與書名頁"
  else if k = "front_matter" then "前置頁（摘要、關鍵詞）"
  else if k = "chapter_title" then "章標題（第 X 章）"
  else if k = "section_title" then "節標題（第 X 節）"
  else if k = "subsection_title" then "小節標題（數字編號）"
  else if k = "body" then "一般內文段落"
  else if k = "figure_caption" then "圖標題說明"
  else if k = "table_caption" then "表標題說明"
  else "索引頁標題（目錄／圖目錄／表目錄）"

/-- The per-group sample lists (`defaultdict(list)` filled in paragraph
order), expressed as an order-preserving filter per key. -/
def detectGrouped (d : Doc) (k : String) : List Snapshot :=
  (snapshotsFrom 0 d.paragraphs).filter (fun s => classify s = k)

/-- The `body` sample list after the conservative-fallback insertion. -/
def detectBodySamples (d : Doc) : List Snapshot :=
  if (detectGrouped d "body").isEmpty then [fallbackSnapshot] else detectGrouped d "body"

/-- The sample list a key is aggregated from:
`grouped_samples.get(key) or grouped_samples.get("body")`. -/
def detectSamplesFor (d : Doc) (k : String) : List Snapshot :=
  if k = "body" then detectBodySamples d
  else
    match detectGrouped d k with
    | [] => detectBodySamples d
    | l => l

/-- The nine aggregated rules, in GROUP_KEYS order. -/
def detectRules (d : Doc) : List (String × ParagraphRule) :=
  groupKeys.map (fun k => (k, aggregateRule (detectSamplesFor d k)))

/-- The detection notes: the body-fallback note if applicable, then one
per-key sample-count note. -/
def detectNotes (d : Doc) : List String :=
  (if (detectGrouped d "body").isEmpty then
    ["未偵測到可用內文段落，系統已套用預設內文規則。"] else []) ++
    groupKeys.map (fun k =>
      "「" ++ groupLabel k ++ "」共偵測 " ++
        toString (if k = "body" then (detectBodySamples d).length
                  else (detectGrouped d k).length) ++ " 筆樣本。")

/-- TemplateDetector.detect. -/
def detect (d : Doc) (templateId : Option String) (templateName : String) : RuleSet :=
  mkRuleSet templateId templateName (extractPageRule d) (detectRules d) (detectNotes d)

end TemplateDetector

/-! ## Format applier (`app/engines/format_applier.py`)

The AI label mapping (keyed by the paragraph index, as
`ai_labels.get(row["index"], ...)` uses it) is passed in as an association
list where the most recent insertion shadows earlier ones; `apply` with the
adapter disabled or failed corresponds to the empty mapping. -/

namespace FormatApplier

/-- Lookup in an AI label mapping; `m.get(i, fallback)`. -/
def aiGet (labels : List (Int × String)) (i : Int) (fallback : String) : String :=
  (labels.lookup i).getD fallback

/-- FormatApplier._locked_group. -/
def lockedGroup (text : String) : Option String :=
  if tocMatchApplier text then some "toc"
  else if figureMatch text then some "figure_caption"
  else if tableMatch text then some "table_caption"
  else none

/-- FormatApplier._classify (heuristic classification over index, stripped
text, alignment and numbering). -/
def classify (index : Nat) (text : String) (alignment : Option PAlign)
    (numbered : Bool) : String :=
  match lockedGroup text with
  | some g => g
  | none =>
    if chapterMatch text then "chapter_title"
    else if sectionMatch text then "section_title"
    else if subsectionMatch text then "subsection_title"
    else if abstractMatch text ∨ keywordsMatch text then "front_matter"
    else if index < 25 ∧ alignment = some PAlign.center then "cover"
    else if index < 35 ∧ alignment = some PAlign.center then "front_matter"
    else if numbered then "subsection_title"
    else "body"

/-- FormatApplier._to_alignment. -/
def toAlignment (alignment : String) : PAlign :=
  if alignment = "center" then .center
  else if alignment = "right" then .right
  else if alignment = "justify" then .justify
  else .left

/-- The rule lookup `groups.get(group, groups["body"])`.  After pydantic
validation `body` is always present, so the final default is never
consulted. -/
def rulesetGet (rs : RuleSet) (group : String) : ParagraphRule :=
  match rs.groups.lookup group with
  | some r => r
  | none => (rs.groups.lookup "body").getD defaultParagraphRule

/-- The per-run part of FormatApplier._apply_rule_to_paragraph: the font
name is forced to the required font on `font.name` and independently on the
`eastAsia`/`ascii`/`hAnsi` `rFonts` attributes; size/bold/italic come from
the rule. -/
def applyRunFormat (rule : ParagraphRule) (r : Run) : Run :=
  { r with
    fontName := some requiredFontName
    size := some rule.fontSizePt
    bold := some rule.bold
    italic := some rule.italic
    eastAsia := some requiredFontName
    asciiFont := some requiredFontName
    hAnsiFont := some requiredFontName }

/-- FormatApplier._apply_rule_to_paragraph. -/
def applyRuleToParagraph (rule : ParagraphRule) (p : Para) : Para :=
  let runs0 := if p.runs.isEmpty then [({} : Run)] else p.runs
  { p with
    alignment := some (toAlignment rule.alignment)
    lineSpacing := some (.flt rule.lineSpacing)
    spaceBefore := some rule.spaceBeforePt
    spaceAfter := some rule.spaceAfterPt
    firstLineIndent := some rule.firstLineIndentPt
    runs := runs0.map (applyRunFormat rule) }

/-- The final group of a non-empty paragraph:
`locked_group or ai_labels.get(index, heuristic_group)`. -/
def resolveGroup (labels : List (Int × String)) (i : Nat) (p : Para) : String :=
  match lockedGroup ((paraText p).trim) with
  | some g => g
  | none =>
    aiGet labels (Int.ofNat i) (classify i ((paraText p).trim) p.alignment p.numbered)

/-- One step of the paragraph pass: skip paragraphs whose stripped text is
empty; otherwise resolve locked group → AI label → heuristic and apply the
group's rule. -/
def processPara (rs : RuleSet) (labels : List (Int × String)) (i : Nat)
    (p : Para) : Para :=
  if (paraText p).trim = "" then p
  else applyRuleToParagraph (rulesetGet rs (resolveGroup labels i p)) p

/-- FormatApplier._apply_paragraph_rules over the paragraph list, indexing
from `i`. -/
def applyParasFrom (rs : RuleSet) (labels : List (Int × String)) (i : Nat) :
    List Para → List Para
  | [] => []
  | p :: ps => processPara rs labels i p :: applyParasFrom rs labels (i + 1) ps

/-- The run quintet `_add_complex_field` appends: field-begin, the
`w:instrText` run, field-separate, the placeholder text run `"1"`, and
field-end. -/
def fieldRuns (instruction : String) : List Run :=
  [{}, { instr := some instruction }, {}, { text := "1" }, {}]

/-- FormatApplier._add_complex_field. -/
def addComplexField (p : Para) (instruction : String) : Para :=
  { p with runs := p.runs ++ fieldRuns instruction }

/-- Does the (first) footer paragraph already hold a PAGE field?  Mirrors
the search for a `w:instrText` whose upper-cased text contains `"PAGE"`. -/
def hasPageField (p : Para) : Bool :=
  p.runs.any (fun r =>
    match r.instr with
    | some s => hasSub "PAGE".data (upperStr s)
    | none => false)

/-- The per-paragraph step of `_ensure_footer_page_field`: if the
paragraph holds no PAGE field yet, center it and append the PAGE field
runs. -/
def footStep (p : Para) : Para :=
  if hasPageField p then p
  else addComplexField { p with alignment := some PAlign.center } "PAGE \\* MERGEFORMAT"

/-- FormatApplier._ensure_footer_page_field on one footer (its paragraph
list): use the first paragraph (adding one to an empty footer). -/
def ensureFooterPageField (footer : List Para) : List Para :=
  match footer with
  | [] => [footStep {}]
  | p :: rest => footStep p :: rest

/-- The per-section part of FormatApplier._apply_page_rule: write the page
geometry, set or create the `w:pgNumType` node (its format always when the
configured format is truthy and not `"none"`, its start only on the first
section), and ensure the footer PAGE field. -/
def applyPageToSection (rs : RuleSet) (idx : Nat) (s : DocSection) : DocSection :=
  let page := rs.page
  let pgFmt0 := if s.hasPgNum then s.pgFmt else none
  let pgStart0 := if s.hasPgNum then s.pgStart else none
  let pgFmt1 :=
    if page.pageNumberFormat ≠ "" ∧ page.pageNumberFormat ≠ "none" then
      some page.pageNumberFormat
    else pgFmt0
  let pgStart1 :=
    if idx = 0 ∧ page.pageNumberStart > 0 then some (toString page.pageNumberStart)
    else pgStart0
  { pageWidth := some page.pageWidthPt
    pageHeight := some page.pageHeightPt
    marginTop := some page.marginTopPt
    marginBottom := some page.marginBottomPt
    marginLeft := some page.marginLeftPt
    marginRight := some page.marginRightPt
    headerDistance := some page.headerDistancePt
    footerDistance := some page.footerDistancePt
    gutter := some page.gutterPt
    hasPgNum := true
    pgFmt := pgFmt1
    pgStart := pgStart1
    footer := ensureFooterPageField s.footer }

/-- FormatApplier._apply_page_rule over the section list. -/
def applySectionsFrom (rs : RuleSet) (i : Nat) : List DocSection → List DocSection
  | [] => []
  | s :: ss => applyPageToSection rs i s :: applySectionsFrom rs (i + 1) ss

/-- The `toc` rule with the `section_title` fallback
(`groups.get("toc", ruleset.groups["section_title"])`). -/
def tocRuleOf (rs : RuleSet) : ParagraphRule :=
  match rs.groups.lookup "toc" with
  | some r => r
  | none => (rs.groups.lookup "section_title").getD defaultParagraphRule

/-- The rule for the synthesized field paragraph
(`groups.get("body", toc_rule)`). -/
def fieldRuleOf (rs : RuleSet) : ParagraphRule :=
  match rs.groups.lookup "body" with
  | some r => r
  | none => tocRuleOf rs

/-- The paragraph `insert_paragraph_before()` followed by
`add_run().add_break(WD_BREAK.PAGE)` creates. -/
def pageBreakPara : Para :=
  { runs := [{ hasBreak := true }] }

/-- The three paragraphs one index block expands to: page break, complex
field (formatted with the body rule), and the heading (formatted with the
toc rule). -/
def blockParas (rs : RuleSet) (block : String × String) : List Para :=
  [pageBreakPara,
   applyRuleToParagraph (fieldRuleOf rs) (addComplexField {} block.2),
   applyRuleToParagraph (tocRuleOf rs) { runs := [{ text := block.1 }] }]

/-- The field instruction of the plain table-of-contents variant. -/
def tocInstruction : String := "TOC \\o \"1-3\" \\h \\z \\u"

/-- The figure-list field instruction. -/
def figureInstruction : String := "TOC \\h \\z \\c \"Figure\""

/-- The table-list field instruction. -/
def tableInstruction : String := "TOC \\h \\z \\c \"Table\""

/-- FormatApplier._find_first_chapter_paragraph, as the index of the anchor
paragraph (`document.paragraphs[0]` when no chapter title exists). -/
def anchorIdx (ps : List Para) : Nat :=
  (ps.findIdx? (fun p => chapterMatch ((paraText p).trim))).getD 0

/-- The trailing cleanup of `_ensure_index_pages`: drop the document's
first paragraph when it is an empty single-run paragraph whose run holds a
`w:br`. -/
def trimLeadingBreak : List Para → List Para
  | [] => []
  | p :: rest =>
    if (paraText p).trim = "" then
      match p.runs with
      | [r] => if r.hasBreak then rest else p :: rest
      | _ => p :: rest
    else p :: rest

/-- The stripped texts of the paragraphs, in order (the `existing_titles`
set is its membership). -/
def titlesOf (ps : List Para) : List String :=
  (ps.map paraText).map (fun s => s.trim)

/-- The missing index blocks, in the order the source builds them. -/
def indexBlocks (ps : List Para) : List (String × String) :=
  (if (titlesOf ps).contains "目錄" then [] else [("目錄", tocInstruction)]) ++
    (if (titlesOf ps).contains "圖目錄" then [] else [("圖目錄", figureInstruction)]) ++
    (if (titlesOf ps).contains "表目錄" then [] else [("表目錄", tableInstruction)])

/-- FormatApplier._ensure_index_pages.  The membership test mirrors the
`existing_titles` set of stripped texts; the `reversed(blocks)` loop of
`insert_paragraph_before` calls materializes as splicing the reversed
blocks' paragraphs immediately before the anchor. -/
def ensureIndexPages (rs : RuleSet) (ps : List Para) : List Para :=
  if ps.isEmpty then ps
  else if (indexBlocks ps).isEmpty then ps
  else
    trimLeadingBreak
      (ps.take (anchorIdx ps) ++
        ((indexBlocks ps).reverse.map (blockParas rs)).flatten ++
        ps.drop (anchorIdx ps))

/-- FormatApplier.apply on the document model, for a fixed AI label
mapping (empty when the adapter is disabled, has no credentials, or
failed): page pass, paragraph pass, index-page synthesis. -/
def applyDoc (rs : RuleSet) (labels : List (Int × String)) (d : Doc) : Doc :=
  let d1 : Doc := { d with sections := applySectionsFrom rs 0 d.sections }
  let d2 : Doc := { d1 with paragraphs := applyParasFrom rs labels 0 d1.paragraphs }
  { d2 with paragraphs := ensureIndexPages rs d2.paragraphs }

end FormatApplier

/-! ## AI classifier adapter (`app/adapters/ai_classifier.py`)

The network boundary (`_call_openai` / `_call_gemini` followed by
`_extract_json_payload` / `_parse_labels`) is abstracted as an oracle
mapping the running call number to either the parsed label items of the
response or the error string a raised exception is rendered to by
`_friendly_error_message`.  Everything around the oracle — batching, the
valid-label filter, the single retry on missing indices, the note texts,
the blanket exception handler that discards all labels — follows
`ParagraphAIClassifier.classify` line by line. -/

namespace AIClassifier

/-- One input row of `classify` (the applier builds one per non-locked
paragraph); only the integer index steers the control flow modelled here. -/
structure AIRow where
  index : Int
  text : String := ""
  heuristic : String := "body"
deriving DecidableEq, Repr

/-- One item of the parsed JSON `labels` array: a dict whose `index` and
`group` fields may be absent or of the wrong type (`none`). -/
structure RawItem where
  index : Option Int := none
  group : Option String := none
deriving DecidableEq, Repr

/-- The outcome of one provider round-trip: parsed items, or the rendered
message of the exception the call raised. -/
inductive AICall : Type
  | ok (items : List RawItem)
  | err (message : String)
deriving DecidableEq, Repr

/-- ParagraphAIClassifier._collect_valid_labels: keep items whose index is
an `int` and whose group is one of the nine keys; later items overwrite
earlier ones as in a dict (the freshest binding is consed on and `lookup`
finds it first). -/
def collectValidLabels (items : List RawItem) : List (Int × String) :=
  items.foldl
    (fun acc it =>
      match it.index, it.group with
      | some i, some g => if groupKeys.contains g then (i, g) :: acc else acc
      | _, _ => acc)
    []

/-- `labels.update(batch_labels)`: bindings of `new` shadow those of
`old`. -/
def updateLabels (old new : List (Int × String)) : List (Int × String) :=
  new ++ old

/-- Membership of a key in a label mapping. -/
def hasLabel (labels : List (Int × String)) (i : Int) : Bool :=
  (labels.lookup i).isSome

/-- The warning for a batch lost to an exception
(`f"AI 分類失敗，已回退規則判斷：{reason}"`). -/
def failNote (reason : String) : String :=
  "AI 分類失敗，已回退規則判斷：" ++ reason

/-- The warning counting paragraphs still unlabeled after the retry
(`f"AI 未完整回傳分類，{len(missing_indices)} 段改用規則判斷。"`). -/
def incompleteNote (n : Nat) : String :=
  "AI 未完整回傳分類，" ++ toString n ++ " 段改用規則判斷。"

/-- The result of the batch loop: the label mapping, the notes so far, the
row lists sent to the provider (one entry per call, in order), the next
call number, and whether the loop finished without an exception. -/
structure LoopResult where
  labels : List (Int × String)
  notes : List String
  callLog : List (List AIRow)
  calls : Nat
  ok : Bool
deriving DecidableEq, Repr

/-- The body of `classify`'s `for batch in self._chunk(...)` loop,
including `_retry_missing_labels`.  `oracle k` is the outcome of the
`k`-th provider call.  An exception anywhere in the `try` block returns
the empty mapping with the failure note appended (all previously
collected labels are discarded). -/
def classifyLoop (oracle : Nat → AICall) :
    List (List AIRow) → Nat → List (Int × String) → List String →
      List (List AIRow) → LoopResult
  | [], k, labels, notes, log =>
    { labels := labels, notes := notes, callLog := log, calls := k, ok := true }
  | batch :: rest, k, labels, notes, log =>
    match oracle k with
    | .err e =>
      { labels := [], notes := notes ++ [failNote e], callLog := log ++ [batch],
        calls := k + 1, ok := false }
    | .ok items =>
      let batchLabels := collectValidLabels items
      let labels1 := updateLabels labels batchLabels
      let expected := dedupKeep (batch.map AIRow.index)
      let missing := expected.filter (fun i => ¬ hasLabel batchLabels i)
      if missing.isEmpty then
        classifyLoop oracle rest (k + 1) labels1 notes (log ++ [batch])
      else
        let missingRows := batch.filter (fun r => missing.contains r.index)
        if missingRows.isEmpty then
          -- `_retry_missing_labels` returns `{}` without a provider call
          let missing2 := expected.filter (fun i => ¬ hasLabel labels1 i)
          let notes1 :=
            if missing2.isEmpty then notes
            else notes ++ [incompleteNote missing2.length]
          classifyLoop oracle rest (k + 1) labels1 notes1 (log ++ [batch])
        else
          match oracle (k + 1) with
          | .err e =>
            { labels := [], notes := notes ++ [failNote e],
              callLog := log ++ [batch, missingRows], calls := k + 2, ok := false }
          | .ok items2 =>
            let labels2 := updateLabels labels1 (collectValidLabels items2)
            let missing2 := expected.filter (fun i => ¬ hasLabel labels2 i)
            let notes1 :=
              if missing2.isEmpty then notes
              else notes ++ [incompleteNote missing2.length]
            classifyLoop oracle rest (k + 2) labels2 notes1 (log ++ [batch, missingRows])

/-- The AI provider configuration fields `_resolve_provider` consults. -/
structure AIConfig where
  provider : String := "auto"
  openaiApiKey : String := ""
  geminiApiKey : String := ""
  batchSize : Nat := 10
deriving DecidableEq, Repr

/-- ParagraphAIClassifier._resolve_provider (with `provider` already
lower-cased, as `from_overrides` guarantees). -/
def resolveProvider (cfg : AIConfig) : Option String :=
  let provider := if cfg.provider = "" then "auto" else cfg.provider
  if provider = "off" ∨ provider = "none" ∨ provider = "disable" ∨
      provider = "disabled" then none
  else if provider = "openai" then
    if cfg.openaiApiKey ≠ "" then some "openai" else none
  else if provider = "gemini" then
    if cfg.geminiApiKey ≠ "" then some "gemini" else none
  else if cfg.openaiApiKey ≠ "" then some "openai"
  else if cfg.geminiApiKey ≠ "" then some "gemini"
  else none

/-- ParagraphAIClassifier._provider_display. -/
def providerDisplay (provider : String) : String :=
  if provider = "openai" then "OpenAI"
  else if provider = "gemini" then "Gemini"
  else provider

/-- ParagraphAIClassifier._disabled_reason_note. -/
def disabledReasonNote (cfg : AIConfig) : String :=
  let provider := if cfg.provider = "" then "auto" else cfg.provider
  if provider = "off" ∨ provider = "none" ∨ provider = "disable" ∨
      provider = "disabled" then "AI 判斷已關閉，使用規則判斷。"
  else if provider = "openai" then "OpenAI API Key 未提供，使用規則判斷。"
  else if provider = "gemini" then "Gemini API Key 未提供，使用規則判斷。"
  else "未設定可用 AI API Key，使用規則判斷。"

/-- ParagraphAIClassifier.classify: the empty-input and disabled-provider
early returns, the batch loop, and — only when no call raised — the two
closing notes. -/
def classify (cfg : AIConfig) (oracle : Nat → AICall) (paragraphs : List AIRow) :
    (List (Int × String)) × List String × List (List AIRow) :=
  if paragraphs.isEmpty then ([], [], [])
  else
    match resolveProvider cfg with
    | none => ([], [disabledReasonNote cfg], [])
    | some provider =>
      let r := classifyLoop oracle (chunkList cfg.batchSize paragraphs) 0 [] [] []
      if r.ok then
        (r.labels,
         r.notes ++
           ["已啟用 AI 語義判斷（" ++ providerDisplay provider ++ "）。",
            "AI 判讀完成 " ++ toString (dedupKeep (r.labels.map Prod.fst)).length ++
              "/" ++ toString paragraphs.length ++ " 段。"],
         r.callLog)
      else (r.labels, r.notes, r.callLog)

end AIClassifier

/-! ## General lemmas about the embedded definitions -/

theorem clampQ_lower (lo hi x : Rat) : lo ≤ clampQ lo hi x := by
  unfold clampQ maxQ minQ
  split_ifs <;> first | assumption | exact le_refl lo

theorem clampQ_upper (lo hi x : Rat) (h : lo ≤ hi) : clampQ lo hi x ≤ hi := by
  unfold clampQ maxQ minQ
  split_ifs <;> first | assumption | linarith

theorem mkParagraphRule_fontName (n : String) (sz : Rat) (b i : Bool)
    (al : String) (ls sb sa fi : Rat) :
    (mkParagraphRule n sz b i al ls sb sa fi).fontName = requiredFontName := rfl

theorem mkParagraphRule_size_bounds (n : String) (sz : Rat) (b i : Bool)
    (al : String) (ls sb sa fi : Rat) :
    8 ≤ (mkParagraphRule n sz b i al ls sb sa fi).fontSizePt ∧
      (mkParagraphRule n sz b i al ls sb sa fi).fontSizePt ≤ 36 :=
  ⟨clampQ_lower 8 36 sz, clampQ_upper 8 36 sz (by norm_num)⟩

theorem mkParagraphRule_spacing_bounds (n : String) (sz : Rat) (b i : Bool)
    (al : String) (ls sb sa fi : Rat) :
    1 ≤ (mkParagraphRule n sz b i al ls sb sa fi).lineSpacing ∧
      (mkParagraphRule n sz b i al ls sb sa fi).lineSpacing ≤ 3 :=
  ⟨clampQ_lower 1 3 ls, clampQ_upper 1 3 ls (by norm_num)⟩

theorem lookup_map_self (l : List String) (f : String → ParagraphRule) (k : String)
    (h : k ∈ l) : (l.map (fun k => (k, f k))).lookup k = some (f k) := by
  induction l with
  | nil => cases h
  | cons a l ih =>
    rcases List.mem_cons.mp h with rfl | hmem
    · simp [List.lookup]
    · by_cases hk : k = a
      · subst hk; simp [List.lookup]
      · have hb : (k == a) = false := beq_eq_false_iff_ne.mpr hk
        simp only [List.map_cons, List.lookup, hb]
        exact ih hmem

theorem foldl_setdefault_id (gs : List (String × ParagraphRule)) (l : List String)
    (h : ∀ k ∈ l, (gs.lookup k).isSome) :
    l.foldl
      (fun acc k => if (acc.lookup k).isSome then acc else acc ++ [(k, defaultParagraphRule)])
      gs = gs := by
  induction l with
  | nil => rfl
  | cons a l ih =>
    have ha := h a (List.mem_cons_self a l)
    simp only [List.foldl_cons, ha, if_pos]
    exact ih (fun k hk => h k (List.mem_cons_of_mem a hk))

theorem ensureGroupKeys_id (gs : List (String × ParagraphRule))
    (h : ∀ k ∈ groupKeys, (gs.lookup k).isSome) : ensureGroupKeys gs = gs :=
  foldl_setdefault_id gs groupKeys h

set_option maxHeartbeats 1000000 in
theorem aggregateRule_eq (samples : List TemplateDetector.Snapshot) :
    TemplateDetector.aggregateRule samples =
      mkParagraphRule requiredFontName
        (roundDp 1 (medianQ (samples.map TemplateDetector.Snapshot.fontSizePt) 12))
        (TemplateDetector.majorityRatio (samples.filter TemplateDetector.Snapshot.bold).length samples.length)
        (TemplateDetector.majorityRatio (samples.filter TemplateDetector.Snapshot.italic).length samples.length)
        (modeStr (samples.map TemplateDetector.Snapshot.alignment) "justify")
        (roundDp 2 (medianQ (samples.map TemplateDetector.Snapshot.lineSpacing) (3/2)))
        (roundDp 1 (medianQ (samples.map TemplateDetector.Snapshot.spaceBeforePt) 0))
        (roundDp 1 (medianQ (samples.map TemplateDetector.Snapshot.spaceAfterPt) 0))
        (roundDp 1 (medianQ (samples.map TemplateDetector.Snapshot.firstLineIndentPt) 0)) := rfl

theorem detect_groups_eq (d : Doc) (tid : Option String) (tname : String) :
    (TemplateDetector.detect d tid tname).groups =
      groupKeys.map (fun k => (k, TemplateDetector.aggregateRule (TemplateDetector.detectSamplesFor d k))) := by
  have h1 : (TemplateDetector.detect d tid tname).groups =
      ensureGroupKeys (TemplateDetector.detectRules d) := rfl
  rw [h1, TemplateDetector.detectRules]
  apply ensureGroupKeys_id
  intro k hk
  rw [lookup_map_self _ _ k hk]
  rfl

theorem isPrefixOf_nil_eq (a : Char) (as : List Char) :
    (a :: as).isPrefixOf ([] : List Char) = false := rfl

theorem isPrefixOf_cons_eq (a b : Char) (as bs : List Char) :
    (a :: as).isPrefixOf (b :: bs) = ((a == b) && as.isPrefixOf bs) := rfl

theorem isPrefixOf_head {a : Char} {as l : List Char}
    (h : (a :: as).isPrefixOf l = true) : l.head? = some a := by
  cases l with
  | nil => rw [isPrefixOf_nil_eq] at h; exact absurd h (by simp)
  | cons b bs =>
    rw [isPrefixOf_cons_eq] at h
    simp only [Bool.and_eq_true, beq_iff_eq] at h
    simp [h.1]

theorem map_head_eq {l : List Char} {c : Char} (f : Char → Char)
    (h : l.head? = some c) : (l.map f).head? = some (f c) := by
  cases l with
  | nil => simp at h
  | cons a rest =>
    simp only [List.head?_cons, Option.some.injEq] at h
    subst h
    simp

theorem lowerStr_head {t : String} {c : Char} (h : t.data.head? = some c) :
    (lowerStr t).head? = some (lowerChar c) :=
  map_head_eq lowerChar h

theorem tocMatchApplier_cases {t : String} (h : tocMatchApplier t = true) :
    lowerStr t = "目錄".data ∨ lowerStr t = "table of contents".data ∨
      lowerStr t = "圖目錄".data ∨ lowerStr t = "表目錄".data := by
  unfold tocMatchApplier at h
  simp only [Bool.or_eq_true, decide_eq_true_eq] at h
  tauto

theorem tocMatchDetector_cases {t : String} (h : tocMatchDetector t = true) :
    lowerStr t = "目錄".data ∨ lowerStr t = "table of contents".data := by
  unfold tocMatchDetector at h
  simp only [Bool.or_eq_true, decide_eq_true_eq] at h
  tauto

theorem figureMatch_head {t : String} (h : figureMatch t = true) :
    (lowerStr t).head? = some '圖' ∨ (lowerStr t).head? = some 'f' := by
  unfold figureMatch at h
  rcases Bool.or_eq_true _ _ |>.mp h with h1 | h2
  · exact Or.inl (of_decide_eq_true (Bool.and_eq_true _ _ |>.mp h1).1)
  · exact Or.inr (isPrefixOf_head (Bool.and_eq_true _ _ |>.mp h2).1)

theorem tableMatch_head {t : String} (h : tableMatch t = true) :
    (lowerStr t).head? = some '表' ∨ (lowerStr t).head? = some 't' := by
  unfold tableMatch at h
  rcases Bool.or_eq_true _ _ |>.mp h with h1 | h2
  · exact Or.inl (of_decide_eq_true (Bool.and_eq_true _ _ |>.mp h1).1)
  · exact Or.inr (isPrefixOf_head (Bool.and_eq_true _ _ |>.mp h2).1)

theorem chapterMatch_head {t : String} (h : chapterMatch t = true) :
    t.data.head? = some '第' := by
  unfold chapterMatch at h
  exact of_decide_eq_true (Bool.and_eq_true _ _ |>.mp (Bool.and_eq_true _ _ |>.mp h).1).1

theorem sectionMatch_head {t : String} (h : sectionMatch t = true) :
    t.data.head? = some '第' := by
  unfold sectionMatch at h
  exact of_decide_eq_true (Bool.and_eq_true _ _ |>.mp (Bool.and_eq_true _ _ |>.mp h).1).1

theorem takeWhile_ne_nil_head {l : List Char} (p : Char → Bool)
    (h : l.takeWhile p ≠ []) : ∃ c, l.head? = some c ∧ p c = true := by
  cases l with
  | nil => exact absurd rfl h
  | cons a rest =>
    by_cases ha : p a = true
    · exact ⟨a, rfl, ha⟩
    · rw [List.takeWhile_cons, if_neg (by simp [ha])] at h
      exact absurd rfl h

theorem subsectionMatch_head {t : String} (h : subsectionMatch t = true) :
    ∃ c, t.data.head? = some c ∧ c.isDigit = true := by
  unfold subsectionMatch at h
  exact takeWhile_ne_nil_head Char.isDigit
    (of_decide_eq_true (Bool.and_eq_true _ _ |>.mp h).1)

theorem isDigit_lowerChar {c : Char} (hc : c.isDigit = true) : lowerChar c = c := by
  unfold lowerChar
  split
  · next hrange =>
    exfalso
    simp only [Char.isDigit, Bool.and_eq_true, decide_eq_true_eq] at hc
    have h9 : c ≤ '9' := hc.2
    have hA : 'A' ≤ c := hrange.1
    have : ('A' : Char) ≤ '9' := le_trans hA h9
    exact absurd this (by decide)
  · rfl

theorem isDigit_ne {c : Char} (hc : c.isDigit = true) :
    c ≠ '目' ∧ c ≠ 't' ∧ c ≠ '圖' ∧ c ≠ '表' ∧ c ≠ '第' ∧ c ≠ 'f' := by
  refine ⟨?_, ?_, ?_, ?_, ?_, ?_⟩ <;> (rintro rfl; exact absurd hc (by decide))

theorem bool_eq_false {b : Bool} (h : ¬ b = true) : b = false :=
  Bool.eq_false_iff.mpr h

theorem tocMatchApplier_false_of_head {t : String} {c : Char}
    (h : (lowerStr t).head? = some c)
    (h1 : c ≠ '目') (h2 : c ≠ 't') (h3 : c ≠ '圖') (h4 : c ≠ '表') :
    tocMatchApplier t = false := by
  by_cases hA : tocMatchApplier t = true
  · rcases tocMatchApplier_cases hA with heq | heq | heq | heq
    · rw [heq] at h; simp only [List.head?_cons, Option.some.injEq] at h
      exact absurd h.symm h1
    · rw [heq] at h; simp only [List.head?_cons, Option.some.injEq] at h
      exact absurd h.symm h2
    · rw [heq] at h; simp only [List.head?_cons, Option.some.injEq] at h
      exact absurd h.symm h3
    · rw [heq] at h; simp only [List.head?_cons, Option.some.injEq] at h
      exact absurd h.symm h4
  · exact bool_eq_false hA

theorem tocMatchDetector_false_of_head {t : String} {c : Char}
    (h : (lowerStr t).head? = some c) (h1 : c ≠ '目') (h2 : c ≠ 't') :
    tocMatchDetector t = false := by
  by_cases hA : tocMatchDetector t = true
  · rcases tocMatchDetector_cases hA with heq | heq
    · rw [heq] at h; simp only [List.head?_cons, Option.some.injEq] at h
      exact absurd h.symm h1
    · rw [heq] at h; simp only [List.head?_cons, Option.some.injEq] at h
      exact absurd h.symm h2
  · exact bool_eq_false hA

theorem figureMatch_false_of_head {t : String} {c : Char}
    (h : (lowerStr t).head? = some c) (h1 : c ≠ '圖') (h2 : c ≠ 'f') :
    figureMatch t = false := by
  by_cases hF : figureMatch t = true
  · rcases figureMatch_head hF with hh | hh
    · rw [h] at hh; simp only [Option.some.injEq] at hh
      exact absurd hh h1
    · rw [h] at hh; simp only [Option.some.injEq] at hh
      exact absurd hh h2
  · exact bool_eq_false hF

theorem tableMatch_false_of_head {t : String} {c : Char}
    (h : (lowerStr t).head? = some c) (h1 : c ≠ '表') (h2 : c ≠ 't') :
    tableMatch t = false := by
  by_cases hF : tableMatch t = true
  · rcases tableMatch_head hF with hh | hh
    · rw [h] at hh; simp only [Option.some.injEq] at hh
      exact absurd hh h1
    · rw [h] at hh; simp only [Option.some.injEq] at hh
      exact absurd hh h2
  · exact bool_eq_false hF

theorem chapterMatch_false_of_head {t : String} {c : Char}
    (h : t.data.head? = some c) (hc : c ≠ '第') : chapterMatch t = false := by
  by_cases hC : chapterMatch t = true
  · have := chapterMatch_head hC
    rw [h] at this; simp only [Option.some.injEq] at this
    exact absurd this hc
  · exact bool_eq_false hC

theorem sectionMatch_false_of_head {t : String} {c : Char}
    (h : t.data.head? = some c) (hc : c ≠ '第') : sectionMatch t = false := by
  by_cases hC : sectionMatch t = true
  · have := sectionMatch_head hC
    rw [h] at this; simp only [Option.some.injEq] at this
    exact absurd this hc
  · exact bool_eq_false hC

theorem figureMatch_not_tocA {t : String} (hfig : figureMatch t = true) :
    tocMatchApplier t = false := by
  by_cases hA : tocMatchApplier t = true
  · exfalso
    rcases tocMatchApplier_cases hA with heq | heq | heq | heq <;>
      · have : figureMatch t = false := by unfold figureMatch; rw [heq]; decide
        rw [this] at hfig; exact Bool.noConfusion hfig
  · exact bool_eq_false hA

theorem figureMatch_not_tocD {t : String} (hfig : figureMatch t = true) :
    tocMatchDetector t = false ∧ t ≠ "圖目錄" ∧ t ≠ "表目錄" := by
  refine ⟨?_, ?_, ?_⟩
  · by_cases hA : tocMatchDetector t = true
    · exfalso
      rcases tocMatchDetector_cases hA with heq | heq <;>
        · have : figureMatch t = false := by unfold figureMatch; rw [heq]; decide
          rw [this] at hfig; exact Bool.noConfusion hfig
    · exact bool_eq_false hA
  · rintro rfl; exact absurd hfig (by decide)
  · rintro rfl; exact absurd hfig (by decide)

theorem tableMatch_not_tocA {t : String} (htab : tableMatch t = true) :
    tocMatchApplier t = false := by
  by_cases hA : tocMatchApplier t = true
  · exfalso
    rcases tocMatchApplier_cases hA with heq | heq | heq | heq <;>
      · have : tableMatch t = false := by unfold tableMatch; rw [heq]; decide
        rw [this] at htab; exact Bool.noConfusion htab
  · exact bool_eq_false hA

theorem tableMatch_not_tocD {t : String} (htab : tableMatch t = true) :
    tocMatchDetector t = false ∧ t ≠ "圖目錄" ∧ t ≠ "表目錄" := by
  refine ⟨?_, ?_, ?_⟩
  · by_cases hA : tocMatchDetector t = true
    · exfalso
      rcases tocMatchDetector_cases hA with heq | heq <;>
        · have : tableMatch t = false := by unfold tableMatch; rw [heq]; decide
          rw [this] at htab; exact Bool.noConfusion htab
    · exact bool_eq_false hA
  · rintro rfl; exact absurd htab (by decide)
  · rintro rfl; exact absurd htab (by decide)

theorem detect_lookup (d : Doc) (tid : Option String) (tname : String) (k : String)
    (hk : k ∈ groupKeys) :
    (TemplateDetector.detect d tid tname).groups.lookup k =
      some (TemplateDetector.aggregateRule (TemplateDetector.detectSamplesFor d k)) := by
  rw [detect_groups_eq]
  exact lookup_map_self _ _ k hk

/-! ## Claim theorems -/

/-- C2: TemplateDetector.detect, on every input document (including one
with zero paragraphs), returns a RuleSet whose groups mapping contains all
nine canonical group keys, and every ParagraphRule in the mapping has
font_size_pt in [8, 36] and line_spacing in [1.0, 3.0]. -/
theorem detect_ruleset_invariants (d : Doc) (tid : Option String) (tname : String) :
    (∀ k ∈ groupKeys, ∃ r, (TemplateDetector.detect d tid tname).groups.lookup k = some r)
    ∧ ∀ kr ∈ (TemplateDetector.detect d tid tname).groups,
        8 ≤ kr.2.fontSizePt ∧ kr.2.fontSizePt ≤ 36 ∧
          1 ≤ kr.2.lineSpacing ∧ kr.2.lineSpacing ≤ 3 := by
  constructor
  · intro k hk
    exact ⟨_, detect_lookup d tid tname k hk⟩
  · intro kr hkr
    rw [detect_groups_eq] at hkr
    rcases List.mem_map.mp hkr with ⟨k, _, rfl⟩
    rw [aggregateRule_eq]
    exact ⟨(mkParagraphRule_size_bounds requiredFontName _ _ _ _ _ _ _ _).1,
      (mkParagraphRule_size_bounds requiredFontName _ _ _ _ _ _ _ _).2,
      (mkParagraphRule_spacing_bounds requiredFontName _ _ _ _ _ _ _ _).1,
      (mkParagraphRule_spacing_bounds requiredFontName _ _ _ _ _ _ _ _).2⟩

/-- Witness for C2 at the empty document: the `toc` key is present with an
in-range rule. -/
theorem detect_ruleset_invariants_witness :
    ∃ r, (TemplateDetector.detect { paragraphs := [], sections := [] } none "").groups.lookup
      "toc" = some r :=
  (detect_ruleset_invariants { paragraphs := [], sections := [] } none "").1 "toc" (by decide)

/-- C10: every ParagraphRule construction/validation (the pydantic
`enforce_required_font` before-mode validator, embedded in
`mkParagraphRule`, runs on construction and on deserialization alike)
replaces any supplied font_name with 標楷體, so an edit to font_name is
silently discarded: the constructor result does not depend on the supplied
name at all. -/
theorem paragraphRule_font_forced (n : String) (sz : Rat) (b i : Bool)
    (al : String) (ls sb sa fi : Rat) :
    (mkParagraphRule n sz b i al ls sb sa fi).fontName = "標楷體" ∧
      mkParagraphRule n sz b i al ls sb sa fi =
        mkParagraphRule requiredFontName sz b i al ls sb sa fi :=
  ⟨rfl, rfl⟩

/-- C3: a paragraph whose stripped text matches the figure-caption pattern
(for example exactly "Figure 3") is classified figure_caption by the
detector for every index, alignment, font and numbering signal, is
classified figure_caption and locked by the applier for every index and
alignment, and the applier's resolution step applies the figure_caption
rule regardless of any AI label mapping. -/
theorem figure_caption_locked (text : String) (hfig : figureMatch text = true) :
    (∀ (i : Nat) (fn al : String) (fs ls sb sa fi : Rat) (b it nb : Bool),
      TemplateDetector.classify
        { index := i, text := text, fontName := fn, fontSizePt := fs, bold := b,
          italic := it, alignment := al, lineSpacing := ls, spaceBeforePt := sb,
          spaceAfterPt := sa, firstLineIndentPt := fi, isNumbered := nb } = "figure_caption")
    ∧ (∀ (i : Nat) (al : Option PAlign) (nb : Bool),
        FormatApplier.classify i text al nb = "figure_caption")
    ∧ FormatApplier.lockedGroup text = some "figure_caption"
    ∧ (∀ (rs : RuleSet) (labels : List (Int × String)) (i : Nat) (p : Para),
        (paraText p).trim = text →
        FormatApplier.processPara rs labels i p =
          FormatApplier.applyRuleToParagraph (FormatApplier.rulesetGet rs "figure_caption") p) := by
  have hA : tocMatchApplier text = false := figureMatch_not_tocA hfig
  obtain ⟨hD, hne1, hne2⟩ := figureMatch_not_tocD hfig
  have hlocked : FormatApplier.lockedGroup text = some "figure_caption" := by
    unfold FormatApplier.lockedGroup
    simp [hA, hfig]
  have hnonempty : text ≠ "" := by
    rintro rfl; exact absurd hfig (by decide)
  refine ⟨?_, ?_, hlocked, ?_⟩
  · intro i fn al fs ls sb sa fi b it nb
    unfold TemplateDetector.classify
    simp [hD, hne1, hne2, hfig]
  · intro i al nb
    unfold FormatApplier.classify
    rw [hlocked]
  · intro rs labels i p hp
    have hres : FormatApplier.resolveGroup labels i p = "figure_caption" := by
      unfold FormatApplier.resolveGroup
      rw [hp, hlocked]
    unfold FormatApplier.processPara
    rw [hp, if_neg hnonempty, hres]

/-- Witness for C3 at the text "Figure 3". -/
theorem figure_caption_locked_witness :
    FormatApplier.classify 7 "Figure 3" (some PAlign.center) false = "figure_caption" ∧
      FormatApplier.lockedGroup "Figure 3" = some "figure_caption" :=
  ⟨(figure_caption_locked "Figure 3" (by decide)).2.1 7 (some PAlign.center) false,
   (figure_caption_locked "Figure 3" (by decide)).2.2.1⟩

/-- C5 (amended): the detector's and the applier's classifiers agree, and
evaluate in the same order, on the pattern tiers — the locked TOC / figure
/ table patterns and the chapter / section / multi-level-numeric title
patterns.  Below those tiers they diverge (see the counterexample): the
detector checks the list-numbering rule (with its <80-character bound)
together with the multi-level prefix, before Abstract/Keywords and the
positional rules, and its cover rule additionally requires bold or a large
font, while the applier checks Abstract/Keywords first, classifies any
early centered paragraph as cover, and checks numbering last. -/
theorem classifier_pattern_tier_agree (i : Nat) (text : String) (al : Option PAlign)
    (nb b it : Bool) (fn : String) (fs ls sb sa fi : Rat)
    (h : tocMatchDetector text = true ∨ text = "圖目錄" ∨ text = "表目錄" ∨
      figureMatch text = true ∨ tableMatch text = true ∨
      chapterMatch text = true ∨ sectionMatch text = true ∨ subsectionMatch text = true) :
    TemplateDetector.classify
      { index := i, text := text, fontName := fn, fontSizePt := fs, bold := b,
        italic := it, alignment := TemplateDetector.alignmentName al, lineSpacing := ls,
        spaceBeforePt := sb, spaceAfterPt := sa, firstLineIndentPt := fi,
        isNumbered := nb } =
      FormatApplier.classify i text al nb := by
  rcases h with h1 | h1 | h1 | h1 | h1 | h1 | h1 | h1
  · -- detector TOC pattern
    have hA : tocMatchApplier text = true := by
      rcases tocMatchDetector_cases h1 with heq | heq <;>
        (unfold tocMatchApplier; rw [heq]; decide)
    unfold TemplateDetector.classify FormatApplier.classify FormatApplier.lockedGroup
    simp [h1, hA]
  · -- text = 圖目錄
    subst h1
    unfold TemplateDetector.classify FormatApplier.classify FormatApplier.lockedGroup
    simp [show tocMatchApplier "圖目錄" = true from by decide]
  · -- text = 表目錄
    subst h1
    unfold TemplateDetector.classify FormatApplier.classify FormatApplier.lockedGroup
    simp [show tocMatchApplier "表目錄" = true from by decide]
  · -- figure caption
    have hA := figureMatch_not_tocA h1
    obtain ⟨hD, hne1, hne2⟩ := figureMatch_not_tocD h1
    unfold TemplateDetector.classify FormatApplier.classify FormatApplier.lockedGroup
    simp [h1, hA, hD, hne1, hne2]
  · -- table caption
    have hA := tableMatch_not_tocA h1
    obtain ⟨hD, hne1, hne2⟩ := tableMatch_not_tocD h1
    by_cases hf : figureMatch text = true
    · have hA' := figureMatch_not_tocA hf
      obtain ⟨hD', hne1', hne2'⟩ := figureMatch_not_tocD hf
      unfold TemplateDetector.classify FormatApplier.classify FormatApplier.lockedGroup
      simp [hf, hA', hD', hne1', hne2']
    · have hf' := bool_eq_false hf
      unfold TemplateDetector.classify FormatApplier.classify FormatApplier.lockedGroup
      simp [h1, hf', hA, hD, hne1, hne2]
  · -- chapter title
    have hd := chapterMatch_head h1
    have hl : (lowerStr text).head? = some '第' := by
      have := lowerStr_head hd
      rwa [show lowerChar '第' = '第' from by decide] at this
    have hA := tocMatchApplier_false_of_head hl (by decide) (by decide) (by decide) (by decide)
    have hD := tocMatchDetector_false_of_head hl (by decide) (by decide)
    have hne1 : text ≠ "圖目錄" := by rintro rfl; exact absurd hd (by decide)
    have hne2 : text ≠ "表目錄" := by rintro rfl; exact absurd hd (by decide)
    have hfig := figureMatch_false_of_head hl (by decide) (by decide)
    have htab := tableMatch_false_of_head hl (by decide) (by decide)
    unfold TemplateDetector.classify FormatApplier.classify FormatApplier.lockedGroup
    simp [h1, hA, hD, hne1, hne2, hfig, htab]
  · -- section title
    have hd := sectionMatch_head h1
    have hl : (lowerStr text).head? = some '第' := by
      have := lowerStr_head hd
      rwa [show lowerChar '第' = '第' from by decide] at this
    have hA := tocMatchApplier_false_of_head hl (by decide) (by decide) (by decide) (by decide)
    have hD := tocMatchDetector_false_of_head hl (by decide) (by decide)
    have hne1 : text ≠ "圖目錄" := by rintro rfl; exact absurd hd (by decide)
    have hne2 : text ≠ "表目錄" := by rintro rfl; exact absurd hd (by decide)
    have hfig := figureMatch_false_of_head hl (by decide) (by decide)
    have htab := tableMatch_false_of_head hl (by decide) (by decide)
    by_cases hc : chapterMatch text = true
    · unfold TemplateDetector.classify FormatApplier.classify FormatApplier.lockedGroup
      simp [hc, hA, hD, hne1, hne2, hfig, htab]
    · have hc' := bool_eq_false hc
      unfold TemplateDetector.classify FormatApplier.classify FormatApplier.lockedGroup
      simp [h1, hc', hA, hD, hne1, hne2, hfig, htab]
  · -- multi-level numeric prefix
    obtain ⟨c, hc, hdig⟩ := subsectionMatch_head h1
    have hl : (lowerStr text).head? = some c := by
      have := lowerStr_head hc
      rwa [isDigit_lowerChar hdig] at this
    obtain ⟨n1, n2, n3, n4, n5, n6⟩ := isDigit_ne hdig
    have hA := tocMatchApplier_false_of_head hl n1 n2 n3 n4
    have hD := tocMatchDetector_false_of_head hl n1 n2
    have hne1 : text ≠ "圖目錄" := by
      rintro rfl
      simp only [show ("圖目錄" : String).data.head? = some '圖' from rfl,
        Option.some.injEq] at hc
      rw [← hc] at hdig
      exact absurd hdig (by decide)
    have hne2 : text ≠ "表目錄" := by
      rintro rfl
      simp only [show ("表目錄" : String).data.head? = some '表' from rfl,
        Option.some.injEq] at hc
      rw [← hc] at hdig
      exact absurd hdig (by decide)
    have hfig := figureMatch_false_of_head hl n3 n6
    have htab := tableMatch_false_of_head hl n4 n2
    have hchap := chapterMatch_false_of_head hc n5
    have hsect := sectionMatch_false_of_head hc n5
    unfold TemplateDetector.classify FormatApplier.classify FormatApplier.lockedGroup
    simp [h1, hA, hD, hne1, hne2, hfig, htab, hchap, hsect]

/-- Witness for the C5 agreement theorem at a chapter-title text. -/
theorem classifier_pattern_tier_agree_witness :
    TemplateDetector.classify
      { index := 0, text := "第一章 緒論", fontName := "標楷體", fontSizePt := 12,
        bold := false, italic := false,
        alignment := TemplateDetector.alignmentName none, lineSpacing := 3/2,
        spaceBeforePt := 0, spaceAfterPt := 0, firstLineIndentPt := 0,
        isNumbered := false } =
      FormatApplier.classify 0 "第一章 緒論" none false :=
  classifier_pattern_tier_agree 0 "第一章 緒論" none false false false "標楷體" 12 (3/2) 0 0 0
    (Or.inr (Or.inr (Or.inr (Or.inr (Or.inr (Or.inl (by decide)))))))

/-- C5 counterexample: on a numbered paragraph matching the
Abstract/Keywords pattern, and on an early centered non-bold 12pt
paragraph, the two classifiers disagree, so they do not evaluate the
priority rules in the same order. -/
theorem classifier_priority_counterexample :
    TemplateDetector.classify
      { index := 3, text := "摘要", fontName := "標楷體", fontSizePt := 12,
        bold := false, italic := false, alignment := "left", lineSpacing := 3/2,
        spaceBeforePt := 0, spaceAfterPt := 0, firstLineIndentPt := 0,
        isNumbered := true } = "subsection_title" ∧
    FormatApplier.classify 3 "摘要" none true = "front_matter" ∧
    TemplateDetector.classify
      { index := 3, text := "你好", fontName := "標楷體", fontSizePt := 12,
        bold := false, italic := false, alignment := "center", lineSpacing := 3/2,
        spaceBeforePt := 0, spaceAfterPt := 0, firstLineIndentPt := 0,
        isNumbered := false } = "front_matter" ∧
    FormatApplier.classify 3 "你好" (some PAlign.center) false = "cover" ∧
    ("subsection_title" : String) ≠ "front_matter" ∧
    ("front_matter" : String) ≠ "cover" := by
  decide

/-- C6 (amended): for every non-empty sample list, the aggregated
ParagraphRule's numeric fields equal the median of the corresponding
clamped sample values rounded — font size, space before, space after and
first-line indent to one decimal place, line spacing to two decimal places
(Python `round`, half-to-even) — with font size and line spacing then
re-clamped by the rule validators.  The spec's claim that the other fields
equal the raw median is corrected by the rounding (see the
counterexample); the median (not mean) aggregation itself is as claimed. -/
theorem aggregate_fields_are_rounded_medians (samples : List TemplateDetector.Snapshot)
    (_h : samples ≠ []) :
    (TemplateDetector.aggregateRule samples).fontSizePt =
      clampQ 8 36 (roundDp 1 (medianQ (samples.map TemplateDetector.Snapshot.fontSizePt) 12)) ∧
    (TemplateDetector.aggregateRule samples).lineSpacing =
      clampQ 1 3 (roundDp 2 (medianQ (samples.map TemplateDetector.Snapshot.lineSpacing) (3/2))) ∧
    (TemplateDetector.aggregateRule samples).spaceBeforePt =
      roundDp 1 (medianQ (samples.map TemplateDetector.Snapshot.spaceBeforePt) 0) ∧
    (TemplateDetector.aggregateRule samples).spaceAfterPt =
      roundDp 1 (medianQ (samples.map TemplateDetector.Snapshot.spaceAfterPt) 0) ∧
    (TemplateDetector.aggregateRule samples).firstLineIndentPt =
      roundDp 1 (medianQ (samples.map TemplateDetector.Snapshot.firstLineIndentPt) 0) :=
  ⟨rfl, rfl, rfl, rfl, rfl⟩

/-- Witness for C6: the spec's own example — body samples with observed
font sizes [12, 12, 12, 40] (the 40 is clamped to 36 when the snapshot is
taken) aggregate to font size 12, the median, not a mean skewed by the
outlier. -/
theorem aggregate_fields_are_rounded_medians_witness :
    (TemplateDetector.aggregateRule
      [TemplateDetector.snapshotParagraph { runs := [{ text := "甲", size := some 12 }] } 0,
       TemplateDetector.snapshotParagraph { runs := [{ text := "乙", size := some 12 }] } 1,
       TemplateDetector.snapshotParagraph { runs := [{ text := "丙", size := some 12 }] } 2,
       TemplateDetector.snapshotParagraph { runs := [{ text := "丁", size := some 40 }] } 3]).fontSizePt
      = 12 := by
  rw [(aggregate_fields_are_rounded_medians _ (by decide)).1]
  with_unfolding_all decide

/-- C6 counterexample: a single body sample whose (clamped) line spacing
is 1.125 aggregates to line spacing 1.12 = 28/25, not the median 1.125 =
9/8 — the aggregation rounds line spacing to two decimal places, which the
claim (asserting rounding for font size only) does not allow. -/
theorem aggregate_median_counterexample :
    (TemplateDetector.aggregateRule
      [TemplateDetector.snapshotParagraph
        { runs := [{ text := "內文" }], lineSpacing := some (.flt (9/8)) } 0]).lineSpacing
      = 28/25 ∧
    medianQ [(TemplateDetector.snapshotParagraph
      { runs := [{ text := "內文" }], lineSpacing := some (.flt (9/8)) } 0).lineSpacing] (3/2)
      = 9/8 ∧
    (28/25 : Rat) ≠ 9/8 := by
  with_unfolding_all decide

/-! ## Applier lemmas: text preservation, run formatting, membership -/

namespace FormatApplier

theorem runText_applyRunFormat (rule : ParagraphRule) (r : Run) :
    runText (applyRunFormat rule r) = runText r := rfl

theorem paraText_applyRuleToParagraph (rule : ParagraphRule) (p : Para) :
    paraText (applyRuleToParagraph rule p) = paraText p := by
  unfold applyRuleToParagraph paraText
  by_cases hr : p.runs.isEmpty
  · rw [if_pos hr, List.isEmpty_iff.mp hr]
    rfl
  · rw [if_neg hr]
    simp only [List.map_map]
    rfl

theorem paraText_processPara (rs : RuleSet) (labels : List (Int × String))
    (i : Nat) (p : Para) :
    paraText (processPara rs labels i p) = paraText p := by
  unfold processPara
  split
  · rfl
  · exact paraText_applyRuleToParagraph _ _

theorem applyParasFrom_map_text (rs : RuleSet) (labels : List (Int × String)) :
    ∀ (i : Nat) (ps : List Para),
      (applyParasFrom rs labels i ps).map paraText = ps.map paraText := by
  intro i ps
  induction ps generalizing i with
  | nil => rfl
  | cons p ps ih =>
    simp only [applyParasFrom, List.map_cons, paraText_processPara, ih]

theorem applyParasFrom_titles (rs : RuleSet) (labels : List (Int × String))
    (i : Nat) (ps : List Para) :
    titlesOf (applyParasFrom rs labels i ps) = titlesOf ps := by
  unfold titlesOf
  rw [applyParasFrom_map_text]

theorem applyParasFrom_get? (rs : RuleSet) (labels : List (Int × String)) :
    ∀ (ps : List Para) (i j : Nat),
      (applyParasFrom rs labels i ps).get? j =
        (ps.get? j).map (processPara rs labels (i + j)) := by
  intro ps
  induction ps with
  | nil => intro i j; simp [applyParasFrom]
  | cons p ps ih =>
    intro i j
    cases j with
    | zero => simp [applyParasFrom]
    | succ j =>
      simp only [applyParasFrom, List.get?_cons_succ]
      have h1 : i + 1 + j = i + (j + 1) := by omega
      rw [ih (i + 1) j, h1]

theorem mem_applyParasFrom {rs : RuleSet} {labels : List (Int × String)} :
    ∀ {i : Nat} {ps : List Para} {q : Para}, q ∈ applyParasFrom rs labels i ps →
      ∃ j p, p ∈ ps ∧ q = processPara rs labels j p := by
  intro i ps
  induction ps generalizing i with
  | nil => intro q hq; cases hq
  | cons p ps ih =>
    intro q hq
    rcases List.mem_cons.mp hq with rfl | hmem
    · exact ⟨i, p, List.mem_cons_self p ps, rfl⟩
    · obtain ⟨j, p', hp', rfl⟩ := ih hmem
      exact ⟨j, p', List.mem_cons_of_mem p hp', rfl⟩

theorem applyRuleToParagraph_runs_ne_nil (rule : ParagraphRule) (p : Para) :
    (applyRuleToParagraph rule p).runs ≠ [] := by
  unfold applyRuleToParagraph
  by_cases hr : p.runs.isEmpty
  · simp [hr]
  · simp only [if_neg hr]
    intro hcontra
    exact hr (by simpa [List.isEmpty_iff] using List.map_eq_nil_iff.mp hcontra)

theorem applyRuleToParagraph_run_fonts (rule : ParagraphRule) (p : Para) :
    ∀ r ∈ (applyRuleToParagraph rule p).runs,
      r.fontName = some requiredFontName ∧ r.eastAsia = some requiredFontName ∧
        r.asciiFont = some requiredFontName ∧ r.hAnsiFont = some requiredFontName := by
  unfold applyRuleToParagraph
  intro r hr
  simp only at hr
  rcases List.mem_map.mp hr with ⟨r0, _, rfl⟩
  exact ⟨rfl, rfl, rfl, rfl⟩

theorem applyRuleToParagraph_run_size_bold (rule : ParagraphRule) (p : Para) :
    ∀ r ∈ (applyRuleToParagraph rule p).runs,
      r.size = some rule.fontSizePt ∧ r.bold = some rule.bold := by
  unfold applyRuleToParagraph
  intro r hr
  simp only at hr
  rcases List.mem_map.mp hr with ⟨r0, _, rfl⟩
  exact ⟨rfl, rfl⟩

theorem paraText_runs_nil {p : Para} (h : p.runs = []) : paraText p = "" := by
  unfold paraText
  rw [h]
  rfl

theorem runs_ne_nil_of_trim {p : Para} (h : (paraText p).trim ≠ "") : p.runs ≠ [] := by
  intro hr
  rw [paraText_runs_nil hr] at h
  exact h (by with_unfolding_all decide)

theorem applyRuleToParagraph_runs_eq (rule : ParagraphRule) {p : Para}
    (h : p.runs ≠ []) :
    (applyRuleToParagraph rule p).runs = p.runs.map (applyRunFormat rule) := by
  unfold applyRuleToParagraph
  rw [if_neg (by simpa [List.isEmpty_iff] using h)]

theorem join_singleton (s : String) : String.join [s] = s := by
  show "" ++ s = s
  exact String.empty_append s

theorem titlesOf_cons (p : Para) (ps : List Para) :
    titlesOf (p :: ps) = (paraText p).trim :: titlesOf ps := rfl

theorem titlesOf_append (l1 l2 : List Para) :
    titlesOf (l1 ++ l2) = titlesOf l1 ++ titlesOf l2 := by
  unfold titlesOf
  simp [List.map_append]

theorem titlesOf_flatten (L : List (List Para)) :
    titlesOf L.flatten = (L.map titlesOf).flatten := by
  induction L with
  | nil => rfl
  | cons l L ih =>
    simp only [List.flatten_cons, titlesOf_append, ih, List.map_cons]

theorem paraText_pageBreakPara : paraText pageBreakPara = "\n" := rfl

theorem titlesOf_blockParas (rs : RuleSet) (b : String × String) :
    titlesOf (blockParas rs b) = ["", "1", (b.1 ++ "").trim] := by
  have h1 : (paraText pageBreakPara).trim = "" := by with_unfolding_all decide
  have h2 : paraText (addComplexField ({} : Para) b.2) = "1" := rfl
  have h3 : paraText ({ runs := [{ text := b.1 }] } : Para) = b.1 ++ "" :=
    join_singleton (b.1 ++ "")
  unfold blockParas titlesOf
  simp only [List.map_cons, List.map_nil, paraText_applyRuleToParagraph, h2, h3]
  rw [h1, show ("1").trim = "1" from by with_unfolding_all decide]

theorem trimLeadingBreak_cons (p : Para) (rest : List Para) :
    trimLeadingBreak (p :: rest) =
      if (paraText p).trim = "" then
        (match p.runs with
         | [r] => if r.hasBreak = true then rest else p :: rest
         | _ => p :: rest)
      else p :: rest := rfl

theorem trimLeadingBreak_cases (l : List Para) :
    trimLeadingBreak l = l ∨
      ∃ p rest, l = p :: rest ∧ (paraText p).trim = "" ∧ trimLeadingBreak l = rest := by
  cases l with
  | nil => exact Or.inl rfl
  | cons p rest =>
    rw [trimLeadingBreak_cons]
    by_cases h1 : (paraText p).trim = ""
    · rw [if_pos h1]
      cases hr : p.runs with
      | nil => exact Or.inl rfl
      | cons r rtail =>
        cases rtail with
        | nil =>
          by_cases hb : r.hasBreak = true
          · rw [show (match [r] with
                | [r] => if r.hasBreak = true then rest else p :: rest
                | _ => p :: rest) = if r.hasBreak = true then rest else p :: rest from rfl,
              if_pos hb]
            exact Or.inr ⟨p, rest, rfl, h1, rfl⟩
          · rw [show (match [r] with
                | [r] => if r.hasBreak = true then rest else p :: rest
                | _ => p :: rest) = if r.hasBreak = true then rest else p :: rest from rfl,
              if_neg hb]
            exact Or.inl rfl
        | cons r2 rtail2 => exact Or.inl rfl
    · rw [if_neg h1]
      exact Or.inl rfl

theorem mem_trimLeadingBreak {q : Para} {l : List Para}
    (h : q ∈ trimLeadingBreak l) : q ∈ l := by
  rcases trimLeadingBreak_cases l with heq | ⟨p, rest, rfl, _, heq⟩
  · rwa [heq] at h
  · rw [heq] at h
    exact List.mem_cons_of_mem p h

theorem count_titles_trimLeadingBreak {t : String} (ht : t ≠ "") (l : List Para) :
    ((titlesOf (trimLeadingBreak l)).count t) = (titlesOf l).count t := by
  rcases trimLeadingBreak_cases l with heq | ⟨p, rest, rfl, hp, heq⟩
  · rw [heq]
  · rw [heq, titlesOf_cons, hp, List.count_cons]
    have hne : ¬("" = t) := fun h => ht h.symm
    simp [hne]

theorem mem_titles_trimLeadingBreak {t : String} (ht : t ≠ "") {l : List Para}
    (h : t ∈ titlesOf l) : t ∈ titlesOf (trimLeadingBreak l) := by
  rcases trimLeadingBreak_cases l with heq | ⟨p, rest, rfl, hp, heq⟩
  · rwa [heq]
  · rw [heq]
    rw [titlesOf_cons, hp] at h
    rcases List.mem_cons.mp h with rfl | hmem
    · exact absurd rfl ht
    · exact hmem

theorem titles_take_drop (t : String) (ps : List Para) (a : Nat) :
    (titlesOf (ps.take a)).count t + (titlesOf (ps.drop a)).count t =
      (titlesOf ps).count t := by
  conv_rhs => rw [← List.take_append_drop a ps]
  rw [titlesOf_append, List.count_append]

theorem contains_eq_mem (l : List String) (t : String) :
    l.contains t = true ↔ t ∈ l := by
  show l.elem t = true ↔ t ∈ l
  exact List.elem_iff

theorem indexBlocks_isEmpty_iff (ps : List Para) :
    (indexBlocks ps).isEmpty = true ↔
      ("目錄" ∈ titlesOf ps ∧ "圖目錄" ∈ titlesOf ps ∧ "表目錄" ∈ titlesOf ps) := by
  unfold indexBlocks
  by_cases c1 : (titlesOf ps).contains "目錄" = true <;>
    by_cases c2 : (titlesOf ps).contains "圖目錄" = true <;>
      by_cases c3 : (titlesOf ps).contains "表目錄" = true <;>
        simp_all [contains_eq_mem, List.isEmpty_iff]

theorem indexBlocks_toc_mem (ps : List Para) (h : ¬ "目錄" ∈ titlesOf ps) :
    ("目錄", tocInstruction) ∈ indexBlocks ps := by
  unfold indexBlocks
  rw [if_neg (fun hc => h ((contains_eq_mem _ _).mp hc))]
  exact List.mem_append_left _ (List.mem_append_left _ (List.mem_singleton.mpr rfl))

theorem indexBlocks_toc_head (ps : List Para) (h : ¬ "目錄" ∈ titlesOf ps) :
    ∃ rest, indexBlocks ps = ("目錄", tocInstruction) :: rest := by
  unfold indexBlocks
  rw [if_neg (fun hc => h ((contains_eq_mem _ _).mp hc))]
  exact ⟨_, rfl⟩

theorem ensureIndexPages_id (rs : RuleSet) (ps : List Para)
    (h1 : "目錄" ∈ titlesOf ps) (h2 : "圖目錄" ∈ titlesOf ps)
    (h3 : "表目錄" ∈ titlesOf ps) : ensureIndexPages rs ps = ps := by
  unfold ensureIndexPages
  by_cases he : ps.isEmpty = true
  · rw [if_pos he]
  · rw [if_neg he, if_pos ((indexBlocks_isEmpty_iff ps).mpr ⟨h1, h2, h3⟩)]

theorem titles_inserted (rs : RuleSet) (blocks : List (String × String)) :
    titlesOf ((blocks.reverse.map (blockParas rs)).flatten) =
      (blocks.reverse.map (fun b => ["", "1", (b.1 ++ "").trim])).flatten := by
  rw [titlesOf_flatten, List.map_map]
  congr 1
  exact List.map_congr_left (fun b _ => titlesOf_blockParas rs b)

theorem ensureIndexPages_insert_eq (rs : RuleSet) (ps : List Para)
    (hne : ¬ ps.isEmpty = true) (hbl : ¬ (indexBlocks ps).isEmpty = true) :
    ensureIndexPages rs ps =
      trimLeadingBreak
        (ps.take (anchorIdx ps) ++
          ((indexBlocks ps).reverse.map (blockParas rs)).flatten ++
          ps.drop (anchorIdx ps)) := by
  unfold ensureIndexPages
  rw [if_neg hne, if_neg hbl]

theorem ensureIndexPages_titles (rs : RuleSet) (ps : List Para) (hne : ps ≠ []) :
    "目錄" ∈ titlesOf (ensureIndexPages rs ps) ∧
      "圖目錄" ∈ titlesOf (ensureIndexPages rs ps) ∧
      "表目錄" ∈ titlesOf (ensureIndexPages rs ps) := by
  have hne' : ¬ ps.isEmpty = true := by simpa [List.isEmpty_iff] using hne
  by_cases hbl : (indexBlocks ps).isEmpty = true
  · obtain ⟨h1, h2, h3⟩ := (indexBlocks_isEmpty_iff ps).mp hbl
    rw [ensureIndexPages_id rs ps h1 h2 h3]
    exact ⟨h1, h2, h3⟩
  · rw [ensureIndexPages_insert_eq rs ps hne' hbl]
    have main : ∀ t : String, t ≠ "" → (t ++ "").trim = t →
        (t ∈ titlesOf ps ∨ (∃ ins, (t, ins) ∈ indexBlocks ps)) →
        t ∈ titlesOf (trimLeadingBreak
          (ps.take (anchorIdx ps) ++
            ((indexBlocks ps).reverse.map (blockParas rs)).flatten ++
            ps.drop (anchorIdx ps))) := by
      intro t htne htrim hcase
      apply mem_titles_trimLeadingBreak htne
      rw [titlesOf_append, titlesOf_append]
      rcases hcase with hmem | ⟨ins, hins⟩
      · conv at hmem => rw [← List.take_append_drop (anchorIdx ps) ps]
        rw [titlesOf_append] at hmem
        rcases List.mem_append.mp hmem with h | h
        · exact List.mem_append_left _ (List.mem_append_left _ h)
        · exact List.mem_append_right _ h
      · apply List.mem_append_left
        apply List.mem_append_right
        rw [titles_inserted]
        apply List.mem_flatten.mpr
        refine ⟨["", "1", t], ?_, by simp⟩
        have : (["", "1", t] : List String) = ["", "1", (((t, ins) : String × String).1 ++ "").trim] := by
          rw [show ((t, ins) : String × String).1 = t from rfl, htrim]
        rw [this]
        exact List.mem_map_of_mem _ (List.mem_reverse.mpr hins)
    constructor
    · apply main "目錄" (by with_unfolding_all decide) (by with_unfolding_all decide)
      by_cases h : "目錄" ∈ titlesOf ps
      · exact Or.inl h
      · exact Or.inr ⟨_, indexBlocks_toc_mem ps h⟩
    constructor
    · apply main "圖目錄" (by with_unfolding_all decide) (by with_unfolding_all decide)
      by_cases h : "圖目錄" ∈ titlesOf ps
      · exact Or.inl h
      · refine Or.inr ⟨figureInstruction, ?_⟩
        unfold indexBlocks
        rw [if_neg (fun hc => h ((contains_eq_mem _ _).mp hc))]
        exact List.mem_append_left _ (List.mem_append_right _ (List.mem_singleton.mpr rfl))
    · apply main "表目錄" (by with_unfolding_all decide) (by with_unfolding_all decide)
      by_cases h : "表目錄" ∈ titlesOf ps
      · exact Or.inl h
      · refine Or.inr ⟨tableInstruction, ?_⟩
        unfold indexBlocks
        rw [if_neg (fun hc => h ((contains_eq_mem _ _).mp hc))]
        exact List.mem_append_right _ (List.mem_singleton.mpr rfl)

theorem count_title_ensureIndexPages (rs : RuleSet) (ps : List Para) (hne : ps ≠ [])
    (h0 : ¬ "目錄" ∈ titlesOf ps) :
    (titlesOf (ensureIndexPages rs ps)).count "目錄" = 1 := by
  have hne' : ¬ ps.isEmpty = true := by simpa [List.isEmpty_iff] using hne
  have hbl : ¬ (indexBlocks ps).isEmpty = true := by
    intro hb
    exact h0 ((indexBlocks_isEmpty_iff ps).mp hb).1
  rw [ensureIndexPages_insert_eq rs ps hne' hbl,
    count_titles_trimLeadingBreak (by with_unfolding_all decide),
    titlesOf_append, titlesOf_append, List.count_append, List.count_append]
  have h1 : (titlesOf (ps.take (anchorIdx ps))).count "目錄" +
      (titlesOf (ps.drop (anchorIdx ps))).count "目錄" = 0 := by
    rw [titles_take_drop]
    exact List.count_eq_zero.mpr h0
  have h2 : (titlesOf (((indexBlocks ps).reverse.map (blockParas rs)).flatten)).count "目錄" = 1 := by
    rw [titles_inserted]
    unfold indexBlocks
    rw [if_neg (fun hc => h0 ((contains_eq_mem _ _).mp hc))]
    by_cases c2 : (titlesOf ps).contains "圖目錄" = true
    · rw [if_pos c2]
      by_cases c3 : (titlesOf ps).contains "表目錄" = true
      · rw [if_pos c3]; with_unfolding_all decide
      · rw [if_neg c3]; with_unfolding_all decide
    · rw [if_neg c2]
      by_cases c3 : (titlesOf ps).contains "表目錄" = true
      · rw [if_pos c3]; with_unfolding_all decide
      · rw [if_neg c3]; with_unfolding_all decide
  omega

theorem count_title_ensureIndexPages_present (rs : RuleSet) (ps : List Para)
    (h0 : "目錄" ∈ titlesOf ps) :
    (titlesOf (ensureIndexPages rs ps)).count "目錄" = (titlesOf ps).count "目錄" := by
  by_cases hne' : ps.isEmpty = true
  · unfold ensureIndexPages
    rw [if_pos hne']
  · by_cases hbl : (indexBlocks ps).isEmpty = true
    · unfold ensureIndexPages
      rw [if_neg hne', if_pos hbl]
    · rw [ensureIndexPages_insert_eq rs ps hne' hbl,
        count_titles_trimLeadingBreak (by with_unfolding_all decide),
        titlesOf_append, titlesOf_append, List.count_append, List.count_append]
      have h1 : (titlesOf (ps.take (anchorIdx ps))).count "目錄" +
          (titlesOf (ps.drop (anchorIdx ps))).count "目錄" =
            (titlesOf ps).count "目錄" := titles_take_drop _ _ _
      have h2 : (titlesOf (((indexBlocks ps).reverse.map (blockParas rs)).flatten)).count "目錄" = 0 := by
        rw [titles_inserted]
        unfold indexBlocks
        rw [if_pos ((contains_eq_mem _ _).mpr h0)]
        by_cases c2 : (titlesOf ps).contains "圖目錄" = true
        · rw [if_pos c2]
          by_cases c3 : (titlesOf ps).contains "表目錄" = true
          · rw [if_pos c3]; with_unfolding_all decide
          · rw [if_neg c3]; with_unfolding_all decide
        · rw [if_neg c2]
          by_cases c3 : (titlesOf ps).contains "表目錄" = true
          · rw [if_pos c3]; with_unfolding_all decide
          · rw [if_neg c3]; with_unfolding_all decide
      omega

theorem mem_ensureIndexPages {rs : RuleSet} {ps : List Para} {q : Para}
    (h : q ∈ ensureIndexPages rs ps) :
    q ∈ ps ∨ ∃ b ∈ indexBlocks ps, q ∈ blockParas rs b := by
  by_cases hne' : ps.isEmpty = true
  · unfold ensureIndexPages at h
    rw [if_pos hne'] at h
    exact Or.inl h
  · by_cases hbl : (indexBlocks ps).isEmpty = true
    · unfold ensureIndexPages at h
      rw [if_neg hne', if_pos hbl] at h
      exact Or.inl h
    · rw [ensureIndexPages_insert_eq rs ps hne' hbl] at h
      have h2 := mem_trimLeadingBreak h
      rcases List.mem_append.mp h2 with h3 | h3
      · rcases List.mem_append.mp h3 with h4 | h4
        · exact Or.inl (List.take_subset _ _ h4)
        · rcases List.mem_flatten.mp h4 with ⟨l, hl, hql⟩
          rcases List.mem_map.mp hl with ⟨b, hb, rfl⟩
          exact Or.inr ⟨b, List.mem_reverse.mp hb, hql⟩
      · exact Or.inl (List.drop_subset _ _ h3)

theorem hasPageField_addComplexField (p : Para) :
    hasPageField (addComplexField p "PAGE \\* MERGEFORMAT") = true := by
  unfold hasPageField addComplexField
  rw [List.any_append]
  refine (Bool.or_eq_true _ _).mpr (Or.inr ?_)
  with_unfolding_all decide

theorem hasPageField_footStep (p : Para) : hasPageField (footStep p) = true := by
  unfold footStep
  by_cases h : hasPageField p = true
  · rwa [if_pos h]
  · rw [if_neg h]
    exact hasPageField_addComplexField _

theorem footStep_idem (p : Para) : footStep (footStep p) = footStep p := by
  conv_lhs => rw [footStep]
  rw [if_pos (hasPageField_footStep p)]

theorem ensureFooterPageField_idem (f : List Para) :
    ensureFooterPageField (ensureFooterPageField f) = ensureFooterPageField f := by
  cases f with
  | nil => simp [ensureFooterPageField, footStep_idem]
  | cons p rest => simp [ensureFooterPageField, footStep_idem]

theorem applyPageToSection_idem (rs : RuleSet) (idx : Nat) (s : DocSection) :
    applyPageToSection rs idx (applyPageToSection rs idx s) =
      applyPageToSection rs idx s := by
  by_cases hf : rs.page.pageNumberFormat ≠ "" ∧ rs.page.pageNumberFormat ≠ "none" <;>
    by_cases hs : idx = 0 ∧ rs.page.pageNumberStart > 0 <;>
      simp [applyPageToSection, hf, hs, ensureFooterPageField_idem]

theorem applySectionsFrom_idem (rs : RuleSet) :
    ∀ (i : Nat) (ss : List DocSection),
      applySectionsFrom rs i (applySectionsFrom rs i ss) = applySectionsFrom rs i ss := by
  intro i ss
  induction ss generalizing i with
  | nil => rfl
  | cons s ss ih =>
    simp only [applySectionsFrom, applyPageToSection_idem, ih]

theorem applyDoc_paragraphs (rs : RuleSet) (labels : List (Int × String)) (d : Doc) :
    (applyDoc rs labels d).paragraphs =
      ensureIndexPages rs (applyParasFrom rs labels 0 d.paragraphs) := rfl

theorem applyDoc_sections (rs : RuleSet) (labels : List (Int × String)) (d : Doc) :
    (applyDoc rs labels d).sections = applySectionsFrom rs 0 d.sections := rfl

theorem processPara_empty {rs : RuleSet} {labels : List (Int × String)} {i : Nat}
    {p : Para} (h : (paraText p).trim = "") : processPara rs labels i p = p := by
  unfold processPara
  rw [if_pos h]

theorem processPara_nonempty {rs : RuleSet} {labels : List (Int × String)} {i : Nat}
    {p : Para} (h : ¬ (paraText p).trim = "") :
    processPara rs labels i p =
      applyRuleToParagraph (rulesetGet rs (resolveGroup labels i p)) p := by
  unfold processPara
  rw [if_neg h]

/-- The font invariant of an applied document: every paragraph with
non-whitespace text has at least one run, and all its runs carry the
organization-mandated font on `font.name` and on the
`eastAsia`/`ascii`/`hAnsi` attributes. -/
theorem fontInvariant (rs : RuleSet) (labels : List (Int × String)) (d : Doc) :
    ∀ p ∈ (applyDoc rs labels d).paragraphs, (paraText p).trim ≠ "" →
      p.runs ≠ [] ∧ ∀ r ∈ p.runs,
        r.fontName = some requiredFontName ∧ r.eastAsia = some requiredFontName ∧
          r.asciiFont = some requiredFontName ∧ r.hAnsiFont = some requiredFontName := by
  intro p hp hne
  rw [applyDoc_paragraphs] at hp
  rcases mem_ensureIndexPages hp with hmem | ⟨b, _, hq⟩
  · obtain ⟨j, p0, _, rfl⟩ := mem_applyParasFrom hmem
    by_cases ht : (paraText p0).trim = ""
    · exfalso
      apply hne
      rw [processPara_empty ht]
      exact ht
    · rw [processPara_nonempty ht]
      exact ⟨applyRuleToParagraph_runs_ne_nil _ _, applyRuleToParagraph_run_fonts _ _⟩
  · unfold blockParas at hq
    rcases List.mem_cons.mp hq with rfl | hq2
    · exact absurd (by with_unfolding_all decide : (paraText pageBreakPara).trim = "") hne
    · rcases List.mem_cons.mp hq2 with rfl | hq3
      · exact ⟨applyRuleToParagraph_runs_ne_nil _ _, applyRuleToParagraph_run_fonts _ _⟩
      · rcases List.mem_cons.mp hq3 with rfl | hq4
        · exact ⟨applyRuleToParagraph_runs_ne_nil _ _, applyRuleToParagraph_run_fonts _ _⟩
        · cases hq4

theorem applyParasFrom_fontNames (rs : RuleSet) (labels : List (Int × String)) :
    ∀ (i : Nat) (ps : List Para),
      (∀ p ∈ ps, (paraText p).trim ≠ "" →
        ∀ r ∈ p.runs, r.fontName = some requiredFontName) →
      (applyParasFrom rs labels i ps).map (fun p => p.runs.map Run.fontName) =
        ps.map (fun p => p.runs.map Run.fontName) := by
  intro i ps
  induction ps generalizing i with
  | nil => intro _; rfl
  | cons p ps ih =>
    intro hinv
    have htail := ih (i + 1) (fun q hq => hinv q (List.mem_cons_of_mem p hq))
    by_cases ht : (paraText p).trim = ""
    · simp only [applyParasFrom, List.map_cons, processPara_empty ht, htail]
    · simp only [applyParasFrom, List.map_cons, processPara_nonempty ht, htail]
      have hrne := runs_ne_nil_of_trim ht
      rw [applyRuleToParagraph_runs_eq _ hrne, List.map_map]
      congr 1
      apply List.map_congr_left
      intro r hr
      show some requiredFontName = r.fontName
      exact (hinv p (List.mem_cons_self p ps) ht r hr).symm

end FormatApplier

/-- A one-run paragraph with the given text (what python-docx
`add_paragraph(text)` produces). -/
def textPara (t : String) (al : Option PAlign := none) : Para :=
  { runs := [{ text := t }], alignment := al }

/-- C4 (amended): after any apply, every paragraph of the output whose
text has non-whitespace content has at least one run, and every one of its
runs carries the organization-mandated font 標楷體 on the run font name and
independently on the eastAsia/ascii/hAnsi attributes — this covers the
original non-empty paragraphs and the synthesized field and heading
paragraphs.  The claim's extension to runs of paragraphs whose text is
empty or whitespace-only is false: `_apply_paragraph_rules` skips them, so
they keep their original fonts (see the counterexample), and the
synthesized page-break paragraph's run is likewise never formatted. -/
theorem apply_font_enforcement (rs : RuleSet) (labels : List (Int × String)) (d : Doc) :
    ∀ p ∈ (FormatApplier.applyDoc rs labels d).paragraphs, (paraText p).trim ≠ "" →
      p.runs ≠ [] ∧ ∀ r ∈ p.runs,
        r.fontName = some requiredFontName ∧ r.eastAsia = some requiredFontName ∧
          r.asciiFont = some requiredFontName ∧ r.hAnsiFont = some requiredFontName :=
  FormatApplier.fontInvariant rs labels d

/-- Witness for C4 on a concrete document: the synthesized 目錄 heading
paragraph of the output carries the mandated font on its run. -/
theorem apply_font_enforcement_witness :
    (FormatApplier.applyRunFormat (FormatApplier.tocRuleOf defaultRuleSet)
        { text := "目錄" } : Run).fontName = some requiredFontName ∧
      (FormatApplier.applyRunFormat (FormatApplier.tocRuleOf defaultRuleSet)
        { text := "目錄" } : Run).eastAsia = some requiredFontName ∧
      (FormatApplier.applyRunFormat (FormatApplier.tocRuleOf defaultRuleSet)
        { text := "目錄" } : Run).asciiFont = some requiredFontName ∧
      (FormatApplier.applyRunFormat (FormatApplier.tocRuleOf defaultRuleSet)
        { text := "目錄" } : Run).hAnsiFont = some requiredFontName :=
  (apply_font_enforcement defaultRuleSet [] { paragraphs := [textPara "內文"], sections := [{}] }
      (FormatApplier.applyRuleToParagraph (FormatApplier.tocRuleOf defaultRuleSet)
        { runs := [{ text := "目錄" }] })
      (by
        show _ ∈ FormatApplier.ensureIndexPages defaultRuleSet
          (FormatApplier.applyParasFrom defaultRuleSet [] 0 [textPara "內文"])
        have h1 : FormatApplier.applyParasFrom defaultRuleSet [] 0 [textPara "內文"]
            = [FormatApplier.processPara defaultRuleSet [] 0 (textPara "內文")] := rfl
        have h2 : FormatApplier.ensureIndexPages defaultRuleSet
              [FormatApplier.processPara defaultRuleSet [] 0 (textPara "內文")]
            = FormatApplier.applyRuleToParagraph (FormatApplier.fieldRuleOf defaultRuleSet)
                (FormatApplier.addComplexField {} FormatApplier.tableInstruction)
              :: FormatApplier.applyRuleToParagraph (FormatApplier.tocRuleOf defaultRuleSet)
                { runs := [{ text := "表目錄" }] }
              :: FormatApplier.pageBreakPara
              :: FormatApplier.applyRuleToParagraph (FormatApplier.fieldRuleOf defaultRuleSet)
                (FormatApplier.addComplexField {} FormatApplier.figureInstruction)
              :: FormatApplier.applyRuleToParagraph (FormatApplier.tocRuleOf defaultRuleSet)
                { runs := [{ text := "圖目錄" }] }
              :: FormatApplier.pageBreakPara
              :: FormatApplier.applyRuleToParagraph (FormatApplier.fieldRuleOf defaultRuleSet)
                (FormatApplier.addComplexField {} FormatApplier.tocInstruction)
              :: FormatApplier.applyRuleToParagraph (FormatApplier.tocRuleOf defaultRuleSet)
                { runs := [{ text := "目錄" }] }
              :: [FormatApplier.processPara defaultRuleSet [] 0 (textPara "內文")] := by
          with_unfolding_all rfl
        rw [h1, h2]
        exact List.mem_cons_of_mem _ (List.mem_cons_of_mem _ (List.mem_cons_of_mem _
          (List.mem_cons_of_mem _ (List.mem_cons_of_mem _ (List.mem_cons_of_mem _
            (List.mem_cons_of_mem _ (List.mem_cons_self _ _))))))))
      (by with_unfolding_all decide)).2
    (FormatApplier.applyRunFormat (FormatApplier.tocRuleOf defaultRuleSet) { text := "目錄" })
    (by
      have hruns : (FormatApplier.applyRuleToParagraph (FormatApplier.tocRuleOf defaultRuleSet)
            { runs := [{ text := "目錄" }] }).runs
          = [FormatApplier.applyRunFormat (FormatApplier.tocRuleOf defaultRuleSet)
              { text := "目錄" }] := by with_unfolding_all rfl
      rw [hruns]
      exact List.mem_cons_self _ _)

theorem FormatApplier.applyParasFrom_ne_nil (rs : RuleSet)
    (labels : List (Int × String)) (i : Nat) {ps : List Para} (h : ps ≠ []) :
    FormatApplier.applyParasFrom rs labels i ps ≠ [] := by
  cases ps with
  | nil => exact absurd rfl h
  | cons p ps => simp [FormatApplier.applyParasFrom]

theorem mem_titlesOf_ne_nil {t : String} {ps : List Para}
    (h : t ∈ FormatApplier.titlesOf ps) : ps ≠ [] := by
  intro hnil
  rw [hnil] at h
  cases h

theorem FormatApplier.findIdx?_chapter_applyParasFrom (rs : RuleSet)
    (labels : List (Int × String)) :
    ∀ (i s : Nat) (ps : List Para),
      (FormatApplier.applyParasFrom rs labels i ps).findIdx?
          (fun p => chapterMatch ((paraText p).trim)) s
        = ps.findIdx? (fun p => chapterMatch ((paraText p).trim)) s := by
  intro i s ps
  induction ps generalizing i s with
  | nil => rfl
  | cons p ps ih =>
    simp only [FormatApplier.applyParasFrom, List.findIdx?_cons,
      FormatApplier.paraText_processPara, ih]

theorem FormatApplier.anchorIdx_applyParasFrom (rs : RuleSet)
    (labels : List (Int × String)) (i : Nat) (ps : List Para) :
    FormatApplier.anchorIdx (FormatApplier.applyParasFrom rs labels i ps)
      = FormatApplier.anchorIdx ps := by
  unfold FormatApplier.anchorIdx
  rw [FormatApplier.findIdx?_chapter_applyParasFrom]

theorem FormatApplier.trimLeadingBreak_break (z : List Para) :
    FormatApplier.trimLeadingBreak (FormatApplier.pageBreakPara :: z) = z := by
  rw [FormatApplier.trimLeadingBreak_cons,
    if_pos (show (paraText FormatApplier.pageBreakPara).trim = "" from by
      with_unfolding_all decide)]
  rfl

/-- An 18-paragraph document: a chapter title at index 0, sixteen filler
body paragraphs, and a centered paragraph at index 17 (just under the
`idx < 25` cover boundary, which the eight net inserted index paragraphs
push over). -/
def cexShiftDoc : Doc :=
  { paragraphs := textPara "第一章 緒論" ::
      (List.replicate 16 (textPara "甲") ++ [textPara "乙" (some PAlign.center)]),
    sections := [] }

/-- C1 (amended): on the second apply with the same RuleSet, the section
(footer) pass is the identity — no second PAGE field is inserted — and the
index-synthesis pass inserts nothing because the first apply's output
already holds all three index titles, so the second output is exactly the
paragraph-rule pass over the first output; paragraph texts and run font
names are byte-stable across the second apply, and when the source document
has no paragraph titled 目錄 both outputs contain exactly one 目錄 title.
The original claim's stability of font sizes and bold flags is false: the
nine inserted index paragraphs shift every index by eight, so a paragraph
classified by the position-based heuristic (e.g. `idx < 25 and centered →
cover`) can change group, size and bold on the second apply (see the
counterexample). -/
theorem apply_idempotence (rs : RuleSet) (l1 l2 : List (Int × String)) (d : Doc)
    (hne : d.paragraphs ≠ []) :
    (FormatApplier.applyDoc rs l2 (FormatApplier.applyDoc rs l1 d)).sections
        = (FormatApplier.applyDoc rs l1 d).sections ∧
      (FormatApplier.applyDoc rs l2 (FormatApplier.applyDoc rs l1 d)).paragraphs
        = FormatApplier.applyParasFrom rs l2 0
            (FormatApplier.applyDoc rs l1 d).paragraphs ∧
      (FormatApplier.applyDoc rs l2 (FormatApplier.applyDoc rs l1 d)).paragraphs.map
          paraText
        = (FormatApplier.applyDoc rs l1 d).paragraphs.map paraText ∧
      (FormatApplier.applyDoc rs l2 (FormatApplier.applyDoc rs l1 d)).paragraphs.map
          (fun p => p.runs.map Run.fontName)
        = (FormatApplier.applyDoc rs l1 d).paragraphs.map
            (fun p => p.runs.map Run.fontName) ∧
      (¬ "目錄" ∈ FormatApplier.titlesOf d.paragraphs →
        (FormatApplier.titlesOf (FormatApplier.applyDoc rs l1 d).paragraphs).count "目錄" = 1 ∧
          (FormatApplier.titlesOf (FormatApplier.applyDoc rs l2
            (FormatApplier.applyDoc rs l1 d)).paragraphs).count "目錄" = 1) := by
  have hP1ne : FormatApplier.applyParasFrom rs l1 0 d.paragraphs ≠ [] :=
    FormatApplier.applyParasFrom_ne_nil rs l1 0 hne
  have ho1 : (FormatApplier.applyDoc rs l1 d).paragraphs
      = FormatApplier.ensureIndexPages rs
          (FormatApplier.applyParasFrom rs l1 0 d.paragraphs) :=
    FormatApplier.applyDoc_paragraphs rs l1 d
  obtain ⟨t1, t2, t3⟩ := FormatApplier.ensureIndexPages_titles rs _ hP1ne
  rw [← ho1] at t1 t2 t3
  have key2 : (FormatApplier.applyDoc rs l2 (FormatApplier.applyDoc rs l1 d)).paragraphs
      = FormatApplier.applyParasFrom rs l2 0
          (FormatApplier.applyDoc rs l1 d).paragraphs := by
    rw [FormatApplier.applyDoc_paragraphs]
    exact FormatApplier.ensureIndexPages_id rs _
      (by rw [FormatApplier.applyParasFrom_titles]; exact t1)
      (by rw [FormatApplier.applyParasFrom_titles]; exact t2)
      (by rw [FormatApplier.applyParasFrom_titles]; exact t3)
  have key1 : (FormatApplier.applyDoc rs l2 (FormatApplier.applyDoc rs l1 d)).sections
      = (FormatApplier.applyDoc rs l1 d).sections := by
    rw [FormatApplier.applyDoc_sections, FormatApplier.applyDoc_sections]
    exact FormatApplier.applySectionsFrom_idem rs 0 d.sections
  have key3 : (FormatApplier.applyDoc rs l2
        (FormatApplier.applyDoc rs l1 d)).paragraphs.map paraText
      = (FormatApplier.applyDoc rs l1 d).paragraphs.map paraText := by
    rw [key2]
    exact FormatApplier.applyParasFrom_map_text rs l2 0 _
  have key4 : (FormatApplier.applyDoc rs l2
        (FormatApplier.applyDoc rs l1 d)).paragraphs.map
          (fun p => p.runs.map Run.fontName)
      = (FormatApplier.applyDoc rs l1 d).paragraphs.map
          (fun p => p.runs.map Run.fontName) := by
    rw [key2]
    exact FormatApplier.applyParasFrom_fontNames rs l2 0 _
      (fun p hp ht r hr =>
        ((FormatApplier.fontInvariant rs l1 d p hp ht).2 r hr).1)
  refine ⟨key1, key2, key3, key4, fun h0 => ?_⟩
  have h0' : ¬ "目錄" ∈ FormatApplier.titlesOf (FormatApplier.applyParasFrom rs l1 0 d.paragraphs) := by
    rw [FormatApplier.applyParasFrom_titles]
    exact h0
  have c1 : (FormatApplier.titlesOf (FormatApplier.applyDoc rs l1 d).paragraphs).count "目錄" = 1 := by
    rw [ho1]
    exact FormatApplier.count_title_ensureIndexPages rs _ hP1ne h0'
  refine ⟨c1, ?_⟩
  rw [key2, show FormatApplier.titlesOf (FormatApplier.applyParasFrom rs l2 0
      (FormatApplier.applyDoc rs l1 d).paragraphs)
    = FormatApplier.titlesOf (FormatApplier.applyDoc rs l1 d).paragraphs
    from FormatApplier.applyParasFrom_titles rs l2 0 _]
  exact c1

/-- Witness for C1 on a concrete one-paragraph document: both the first
and the second apply contain exactly one 目錄 title. -/
theorem apply_idempotence_witness :
    ({ paragraphs := [textPara "內文"], sections := [{}] } : Doc).paragraphs ≠ [] ∧
      (FormatApplier.titlesOf (FormatApplier.applyDoc defaultRuleSet []
        { paragraphs := [textPara "內文"], sections := [{}] }).paragraphs).count "目錄" = 1 ∧
      (FormatApplier.titlesOf (FormatApplier.applyDoc defaultRuleSet []
        (FormatApplier.applyDoc defaultRuleSet []
          { paragraphs := [textPara "內文"], sections := [{}] })).paragraphs).count "目錄" = 1 :=
  ⟨by simp,
    ((apply_idempotence defaultRuleSet [] []
        { paragraphs := [textPara "內文"], sections := [{}] } (by simp)).2.2.2.2
      (by with_unfolding_all decide)).1,
    ((apply_idempotence defaultRuleSet [] []
        { paragraphs := [textPara "內文"], sections := [{}] } (by simp)).2.2.2.2
      (by with_unfolding_all decide)).2⟩

/-- C1 counterexample: the bold flags are not stable under a second apply.
The nine inserted index paragraphs shift indices by eight, so the centered
paragraph 乙 sitting at index 17 of the source (classified cover, bold) sits
at index 25 after the first apply and is re-classified front_matter (not
bold) by the second. -/
theorem apply_idempotence_counterexample :
    ¬ ((FormatApplier.applyDoc defaultRuleSet []
          (FormatApplier.applyDoc defaultRuleSet [] cexShiftDoc)).paragraphs.map
            (fun p => p.runs.map Run.bold)
        = (FormatApplier.applyDoc defaultRuleSet [] cexShiftDoc).paragraphs.map
            (fun p => p.runs.map Run.bold)) := by
  intro hEq
  have hne : cexShiftDoc.paragraphs ≠ [] := by simp [cexShiftDoc]
  have hP1ne : FormatApplier.applyParasFrom defaultRuleSet [] 0 cexShiftDoc.paragraphs ≠ [] :=
    FormatApplier.applyParasFrom_ne_nil defaultRuleSet [] 0 hne
  have ho1 : (FormatApplier.applyDoc defaultRuleSet [] cexShiftDoc).paragraphs
      = FormatApplier.ensureIndexPages defaultRuleSet
          (FormatApplier.applyParasFrom defaultRuleSet [] 0 cexShiftDoc.paragraphs) :=
    FormatApplier.applyDoc_paragraphs defaultRuleSet [] cexShiftDoc
  obtain ⟨t1, t2, t3⟩ := FormatApplier.ensureIndexPages_titles defaultRuleSet _ hP1ne
  rw [← ho1] at t1 t2 t3
  have key2 : (FormatApplier.applyDoc defaultRuleSet []
        (FormatApplier.applyDoc defaultRuleSet [] cexShiftDoc)).paragraphs
      = FormatApplier.applyParasFrom defaultRuleSet [] 0
          (FormatApplier.applyDoc defaultRuleSet [] cexShiftDoc).paragraphs := by
    rw [FormatApplier.applyDoc_paragraphs]
    exact FormatApplier.ensureIndexPages_id defaultRuleSet _
      (by rw [FormatApplier.applyParasFrom_titles]; exact t1)
      (by rw [FormatApplier.applyParasFrom_titles]; exact t2)
      (by rw [FormatApplier.applyParasFrom_titles]; exact t3)
  have hIB : FormatApplier.indexBlocks
        (FormatApplier.applyParasFrom defaultRuleSet [] 0 cexShiftDoc.paragraphs)
      = [("目錄", FormatApplier.tocInstruction),
          ("圖目錄", FormatApplier.figureInstruction),
          ("表目錄", FormatApplier.tableInstruction)] := by
    unfold FormatApplier.indexBlocks
    simp only [FormatApplier.applyParasFrom_titles]
    with_unfolding_all decide
  have hpred : chapterMatch ((paraText (textPara "第一章 緒論")).trim) = true := by
    rw [show (paraText (textPara "第一章 緒論")).trim = "第一章 緒論" from by
      with_unfolding_all rfl]
    decide
  have hA : FormatApplier.anchorIdx
        (FormatApplier.applyParasFrom defaultRuleSet [] 0 cexShiftDoc.paragraphs) = 0 := by
    rw [FormatApplier.anchorIdx_applyParasFrom]
    unfold FormatApplier.anchorIdx
    rw [show cexShiftDoc.paragraphs = textPara "第一章 緒論" ::
        (List.replicate 16 (textPara "甲") ++ [textPara "乙" (some PAlign.center)]) from rfl,
      List.findIdx?_cons, hpred]
    rfl
  have hsplit : (FormatApplier.applyDoc defaultRuleSet [] cexShiftDoc).paragraphs
      = ((FormatApplier.blockParas defaultRuleSet
            ("表目錄", FormatApplier.tableInstruction)).tail ++
          (FormatApplier.blockParas defaultRuleSet
              ("圖目錄", FormatApplier.figureInstruction) ++
            FormatApplier.blockParas defaultRuleSet
              ("目錄", FormatApplier.tocInstruction))) ++
          FormatApplier.applyParasFrom defaultRuleSet [] 0 cexShiftDoc.paragraphs := by
    rw [ho1, FormatApplier.ensureIndexPages_insert_eq defaultRuleSet _
        (by simpa [List.isEmpty_iff] using hP1ne) (by rw [hIB]; simp),
      hIB, hA]
    simp only [List.take_zero, List.drop_zero, List.nil_append]
    rw [show ([("目錄", FormatApplier.tocInstruction),
            ("圖目錄", FormatApplier.figureInstruction),
            ("表目錄", FormatApplier.tableInstruction)].reverse.map
              (FormatApplier.blockParas defaultRuleSet)).flatten ++
          FormatApplier.applyParasFrom defaultRuleSet [] 0 cexShiftDoc.paragraphs
        = FormatApplier.pageBreakPara ::
            (((FormatApplier.blockParas defaultRuleSet
                  ("表目錄", FormatApplier.tableInstruction)).tail ++
              (FormatApplier.blockParas defaultRuleSet
                  ("圖目錄", FormatApplier.figureInstruction) ++
                FormatApplier.blockParas defaultRuleSet
                  ("目錄", FormatApplier.tocInstruction))) ++
              FormatApplier.applyParasFrom defaultRuleSet [] 0 cexShiftDoc.paragraphs)
        from rfl]
    exact FormatApplier.trimLeadingBreak_break _
  have hlen : ((FormatApplier.blockParas defaultRuleSet
        ("表目錄", FormatApplier.tableInstruction)).tail ++
      (FormatApplier.blockParas defaultRuleSet
          ("圖目錄", FormatApplier.figureInstruction) ++
        FormatApplier.blockParas defaultRuleSet
          ("目錄", FormatApplier.tocInstruction))).length = 8 := rfl
  have h17 : cexShiftDoc.paragraphs.get? 17 = some (textPara "乙" (some PAlign.center)) := by
    with_unfolding_all rfl
  have h25 : (FormatApplier.applyDoc defaultRuleSet [] cexShiftDoc).paragraphs.get? 25
      = some (FormatApplier.processPara defaultRuleSet [] 17
          (textPara "乙" (some PAlign.center))) := by
    rw [hsplit, List.get?_append_right (by rw [hlen]; omega), hlen,
      show (25 - 8 : Nat) = 17 from by norm_num,
      FormatApplier.applyParasFrom_get?, h17]
    simp
  have h25' : (FormatApplier.applyDoc defaultRuleSet []
        (FormatApplier.applyDoc defaultRuleSet [] cexShiftDoc)).paragraphs.get? 25
      = some (FormatApplier.processPara defaultRuleSet [] 25
          (FormatApplier.processPara defaultRuleSet [] 17
            (textPara "乙" (some PAlign.center)))) := by
    rw [key2, FormatApplier.applyParasFrom_get?, h25]
    simp
  have hfin := congrArg (fun l => l.get? 25) hEq
  simp only [List.get?_map, h25, h25', Option.map_some'] at hfin
  exact absurd (Option.some.inj hfin) (by with_unfolding_all decide)

/-- C4 counterexample: a whitespace-only paragraph's run keeps its
original font "Arial" through apply — not every run of every output
paragraph carries 標楷體. -/
theorem apply_font_counterexample :
    ((FormatApplier.applyDoc defaultRuleSet []
        { paragraphs := [{ runs := [{ text := " ", fontName := some "Arial" }] },
                         textPara "內文"],
          sections := [{}] }).paragraphs.any
      (fun p => p.runs.any (fun r => r.fontName = some "Arial"))) = true ∧
    ("Arial" : String) ≠ requiredFontName := by
  with_unfolding_all decide

/-- C7 (amended): on a non-empty document with no paragraph whose stripped
text equals 目錄, apply inserts exactly one 目錄 block — the complex-field
paragraph holding the plain TOC instruction (formatted with the body rule,
falling back to the toc rule) directly followed by the heading paragraph
titled 目錄 (formatted with the toc rule, falling back to section_title's
rule) — positioned immediately before the anchor (the first chapter-title
paragraph, or the first paragraph if none exists), and the output holds
exactly one 目錄 title; the block's page-break paragraph precedes the field
paragraph whenever anything precedes the block, but when the block lands at
the very start of the document the trailing cleanup of _ensure_index_pages
removes that page break (see the counterexample).  On a document already
holding the title, no new 目錄 heading is inserted. -/
theorem toc_block_insertion (rs : RuleSet) (l : List (Int × String)) (d : Doc)
    (hne : d.paragraphs ≠ []) :
    (¬ "目錄" ∈ FormatApplier.titlesOf d.paragraphs →
      (∃ pre post,
        (FormatApplier.applyDoc rs l d).paragraphs =
            pre ++ [FormatApplier.applyRuleToParagraph (FormatApplier.fieldRuleOf rs)
                (FormatApplier.addComplexField {} FormatApplier.tocInstruction),
              FormatApplier.applyRuleToParagraph (FormatApplier.tocRuleOf rs)
                { runs := [{ text := "目錄" }] }] ++ post ∧
          post = (FormatApplier.applyParasFrom rs l 0 d.paragraphs).drop
              (FormatApplier.anchorIdx d.paragraphs) ∧
          (pre = [] ∨ ∃ pre2, pre = pre2 ++ [FormatApplier.pageBreakPara])) ∧
        (FormatApplier.titlesOf
          (FormatApplier.applyDoc rs l d).paragraphs).count "目錄" = 1) ∧
    ("目錄" ∈ FormatApplier.titlesOf d.paragraphs →
      (FormatApplier.titlesOf (FormatApplier.applyDoc rs l d).paragraphs).count "目錄"
        = (FormatApplier.titlesOf d.paragraphs).count "目錄") := by
  have hP1ne : FormatApplier.applyParasFrom rs l 0 d.paragraphs ≠ [] :=
    FormatApplier.applyParasFrom_ne_nil rs l 0 hne
  have ho1 : (FormatApplier.applyDoc rs l d).paragraphs
      = FormatApplier.ensureIndexPages rs
          (FormatApplier.applyParasFrom rs l 0 d.paragraphs) :=
    FormatApplier.applyDoc_paragraphs rs l d
  constructor
  · intro h0
    have h0' : ¬ "目錄" ∈ FormatApplier.titlesOf
        (FormatApplier.applyParasFrom rs l 0 d.paragraphs) := by
      rw [FormatApplier.applyParasFrom_titles]
      exact h0
    obtain ⟨rest, hIB⟩ := FormatApplier.indexBlocks_toc_head _ h0'
    have hbl : ¬ (FormatApplier.indexBlocks
        (FormatApplier.applyParasFrom rs l 0 d.paragraphs)).isEmpty = true := by
      rw [hIB]
      simp
    have hF : ((FormatApplier.indexBlocks
            (FormatApplier.applyParasFrom rs l 0 d.paragraphs)).reverse.map
          (FormatApplier.blockParas rs)).flatten
        = (rest.reverse.map (FormatApplier.blockParas rs)).flatten ++
            FormatApplier.blockParas rs ("目錄", FormatApplier.tocInstruction) := by
      rw [hIB]
      simp
    have hsplit : (FormatApplier.applyDoc rs l d).paragraphs
        = FormatApplier.trimLeadingBreak
            (((FormatApplier.applyParasFrom rs l 0 d.paragraphs).take
                (FormatApplier.anchorIdx (FormatApplier.applyParasFrom rs l 0 d.paragraphs)) ++
              (rest.reverse.map (FormatApplier.blockParas rs)).flatten) ++
              (FormatApplier.pageBreakPara ::
                ([FormatApplier.applyRuleToParagraph (FormatApplier.fieldRuleOf rs)
                    (FormatApplier.addComplexField {} FormatApplier.tocInstruction),
                  FormatApplier.applyRuleToParagraph (FormatApplier.tocRuleOf rs)
                    { runs := [{ text := "目錄" }] }] ++
                  (FormatApplier.applyParasFrom rs l 0 d.paragraphs).drop
                    (FormatApplier.anchorIdx
                      (FormatApplier.applyParasFrom rs l 0 d.paragraphs))))) := by
      rw [ho1, FormatApplier.ensureIndexPages_insert_eq rs _
          (by simpa [List.isEmpty_iff] using hP1ne) hbl, hF]
      simp [List.append_assoc, FormatApplier.blockParas]
    refine ⟨?_, ?_⟩
    · rw [FormatApplier.anchorIdx_applyParasFrom rs l 0 d.paragraphs] at hsplit
      cases hpre : ((FormatApplier.applyParasFrom rs l 0 d.paragraphs).take
          (FormatApplier.anchorIdx d.paragraphs) ++
        (rest.reverse.map (FormatApplier.blockParas rs)).flatten) with
      | nil =>
        rw [hpre, List.nil_append, FormatApplier.trimLeadingBreak_break] at hsplit
        exact ⟨[], _, by simpa using hsplit,
          rfl, Or.inl rfl⟩
      | cons q pre0 =>
        rw [hpre, List.cons_append] at hsplit
        rcases FormatApplier.trimLeadingBreak_cases
            (q :: (pre0 ++ (FormatApplier.pageBreakPara ::
              ([FormatApplier.applyRuleToParagraph (FormatApplier.fieldRuleOf rs)
                  (FormatApplier.addComplexField {} FormatApplier.tocInstruction),
                FormatApplier.applyRuleToParagraph (FormatApplier.tocRuleOf rs)
                  { runs := [{ text := "目錄" }] }] ++
                (FormatApplier.applyParasFrom rs l 0 d.paragraphs).drop
                  (FormatApplier.anchorIdx d.paragraphs)))))
          with heq | ⟨p, restL, hcons, hp, heq⟩
        · rw [heq] at hsplit
          refine ⟨(q :: pre0) ++ [FormatApplier.pageBreakPara], _, ?_,
            rfl, Or.inr ⟨q :: pre0, rfl⟩⟩
          rw [hsplit]
          simp
        · obtain ⟨rfl, rfl⟩ := List.cons.injEq .. |>.mp hcons
          rw [heq] at hsplit
          refine ⟨pre0 ++ [FormatApplier.pageBreakPara], _, ?_,
            rfl, Or.inr ⟨pre0, rfl⟩⟩
          rw [hsplit]
          simp
    · rw [ho1]
      exact FormatApplier.count_title_ensureIndexPages rs _ hP1ne h0'
  · intro h0
    have h0' : "目錄" ∈ FormatApplier.titlesOf
        (FormatApplier.applyParasFrom rs l 0 d.paragraphs) := by
      rw [FormatApplier.applyParasFrom_titles]
      exact h0
    rw [ho1, FormatApplier.count_title_ensureIndexPages_present rs _ h0',
      FormatApplier.applyParasFrom_titles]

/-- Witness for C7 on a concrete one-paragraph document with no 目錄
title: the output holds exactly one 目錄 title. -/
theorem toc_block_insertion_witness :
    ¬ "目錄" ∈ FormatApplier.titlesOf
        ({ paragraphs := [textPara "內文"], sections := [{}] } : Doc).paragraphs ∧
      (FormatApplier.titlesOf (FormatApplier.applyDoc defaultRuleSet []
        { paragraphs := [textPara "內文"], sections := [{}] }).paragraphs).count "目錄" = 1 :=
  ⟨by with_unfolding_all decide,
    ((toc_block_insertion defaultRuleSet []
        { paragraphs := [textPara "內文"], sections := [{}] } (by simp)).1
      (by with_unfolding_all decide)).2⟩

/-- C7 counterexample: on a document that already holds 圖目錄 and 表目錄
but not 目錄, the inserted 目錄 block lands at the head of the document and
its page break is removed by the trailing cleanup — the output contains no
page-break run at all, although the 目錄 title was inserted (count 1), so
the claimed always-present accompanying page break is refuted. -/
theorem toc_block_insertion_counterexample :
    ((FormatApplier.applyDoc defaultRuleSet []
        { paragraphs := [textPara "圖目錄", textPara "表目錄", textPara "內文文字"],
          sections := [] }).paragraphs.any
      (fun p => p.runs.any (fun r => r.hasBreak))) = false ∧
      (FormatApplier.titlesOf (FormatApplier.applyDoc defaultRuleSet []
        { paragraphs := [textPara "圖目錄", textPara "表目錄", textPara "內文文字"],
          sections := [] }).paragraphs).count "目錄" = 1 := by
  with_unfolding_all decide

theorem mem_of_mem_dedupKeep_len {α : Type} [DecidableEq α] :
    ∀ (n : Nat) (l : List α), l.length ≤ n → ∀ a, a ∈ dedupKeep l → a ∈ l := by
  intro n
  induction n with
  | zero =>
    intro l hl a h
    cases l with
    | nil => rw [dedupKeep] at h; cases h
    | cons x xs => simp at hl
  | succ n ih =>
    intro l hl a h
    cases l with
    | nil => rw [dedupKeep] at h; cases h
    | cons x xs =>
      rw [dedupKeep] at h
      rcases List.mem_cons.mp h with rfl | h2
      · exact List.mem_cons_self _ _
      · have hlen : (xs.filter (fun y => y ≠ x)).length ≤ n := by
          have hf := List.length_filter_le (fun y => decide (y ≠ x)) xs
          simp only [List.length_cons] at hl
          omega
        exact List.mem_cons_of_mem _ (List.mem_of_mem_filter (ih _ hlen a h2))

theorem mem_of_mem_dedupKeep {α : Type} [DecidableEq α] {l : List α} {a : α}
    (h : a ∈ dedupKeep l) : a ∈ l :=
  mem_of_mem_dedupKeep_len l.length l (Nat.le_refl _) a h

namespace AIClassifier

/-- The indices of a batch (`expected_indices`, deduplicated in first-seen
order) that the given label mapping does not cover. -/
@[reducible] def missingOf (batch : List AIRow) (labels : List (Int × String)) : List Int :=
  (dedupKeep (batch.map AIRow.index)).filter (fun i => ¬ hasLabel labels i)

/-- The rows of the batch whose index is in the missing list (the rows
`_retry_missing_labels` sends). -/
@[reducible] def missingRowsOf (batch : List AIRow) (missing : List Int) : List AIRow :=
  batch.filter (fun row => missing.contains row.index)

theorem missingRowsOf_ne_nil (batch : List AIRow) (labels : List (Int × String))
    (hmiss : missingOf batch labels ≠ []) :
    missingRowsOf batch (missingOf batch labels) ≠ [] := by
  obtain ⟨i, hi⟩ := List.exists_mem_of_ne_nil _ hmiss
  have hie : i ∈ dedupKeep (batch.map AIRow.index) := List.mem_of_mem_filter hi
  obtain ⟨row, hrow, hri⟩ := List.mem_map.mp (mem_of_mem_dedupKeep hie)
  apply List.ne_nil_of_mem (a := row)
  rw [missingRowsOf, List.mem_filter]
  exact ⟨hrow, by rw [hri]; exact List.elem_iff.mpr hi⟩

end AIClassifier

/-- C8: when the first provider call of a (single-batch) invocation
returns valid labels for only a proper subset of the batch's indices and
the retry call also returns, the loop issues exactly one retry holding
precisely the rows of the missing indices (the call log gains exactly
`[batch, missingRows]` and the call counter advances by two), merges the
retry's labels over the first call's, appends — exactly when indices are
still unlabeled after the retry — one note counting them, and nothing
else; and for every index absent from the returned mapping the applier's
lookup falls back to the heuristic group. -/
theorem ai_missing_retry (batch : List AIClassifier.AIRow)
    (oracle : Nat → AIClassifier.AICall)
    (k : Nat) (labels0 : List (Int × String)) (notes0 : List String)
    (log0 : List (List AIClassifier.AIRow))
    (items items2 : List AIClassifier.RawItem)
    (h1 : oracle k = AIClassifier.AICall.ok items)
    (h2 : oracle (k + 1) = AIClassifier.AICall.ok items2)
    (hmiss : AIClassifier.missingOf batch (AIClassifier.collectValidLabels items) ≠ []) :
    AIClassifier.classifyLoop oracle [batch] k labels0 notes0 log0
      = { labels := AIClassifier.updateLabels
            (AIClassifier.updateLabels labels0 (AIClassifier.collectValidLabels items))
            (AIClassifier.collectValidLabels items2),
          notes := if (AIClassifier.missingOf batch (AIClassifier.updateLabels
              (AIClassifier.updateLabels labels0 (AIClassifier.collectValidLabels items))
              (AIClassifier.collectValidLabels items2))).isEmpty then notes0
            else notes0 ++ [AIClassifier.incompleteNote (AIClassifier.missingOf batch
              (AIClassifier.updateLabels
                (AIClassifier.updateLabels labels0 (AIClassifier.collectValidLabels items))
                (AIClassifier.collectValidLabels items2))).length],
          callLog := log0 ++ [batch, AIClassifier.missingRowsOf batch
            (AIClassifier.missingOf batch (AIClassifier.collectValidLabels items))],
          calls := k + 2,
          ok := true } ∧
      (∀ (labels : List (Int × String)) (i : Int) (fallback : String),
        AIClassifier.hasLabel labels i = false →
          FormatApplier.aiGet labels i fallback = fallback) := by
  constructor
  · have hrows := AIClassifier.missingRowsOf_ne_nil batch
      (AIClassifier.collectValidLabels items) hmiss
    rw [AIClassifier.classifyLoop, h1]
    dsimp only
    rw [if_neg (show ¬ (AIClassifier.missingOf batch
        (AIClassifier.collectValidLabels items)).isEmpty = true from by
      simpa [List.isEmpty_iff] using hmiss)]
    rw [if_neg (show ¬ (AIClassifier.missingRowsOf batch (AIClassifier.missingOf batch
        (AIClassifier.collectValidLabels items))).isEmpty = true from by
      simpa [List.isEmpty_iff] using hrows)]
    rw [h2]
    rfl
  · intro labels i fallback hl
    unfold FormatApplier.aiGet
    unfold AIClassifier.hasLabel at hl
    cases hlk : labels.lookup i with
    | none => rfl
    | some g => rw [hlk] at hl; simp at hl

/-- Witness for C8: a two-row batch whose first call labels only index 0;
the retry returns nothing, so one note counts the single unlabeled
paragraph, the provider was called exactly twice, and the applier's lookup
for index 1 yields the heuristic fallback. -/
theorem ai_missing_retry_witness :
    (AIClassifier.classifyLoop
        (fun k => if k = 0 then AIClassifier.AICall.ok
            [{ index := some 0, group := some "body" }]
          else AIClassifier.AICall.ok [])
        [[{ index := 0 }, { index := 1 }]] 0 [] [] []).notes
      = [AIClassifier.incompleteNote 1] ∧
    (AIClassifier.classifyLoop
        (fun k => if k = 0 then AIClassifier.AICall.ok
            [{ index := some 0, group := some "body" }]
          else AIClassifier.AICall.ok [])
        [[{ index := 0 }, { index := 1 }]] 0 [] [] []).calls = 2 ∧
    FormatApplier.aiGet [((0 : Int), "body")] 1 "heuristic" = "heuristic" := by
  have h := ai_missing_retry [{ index := 0 }, { index := 1 }]
    (fun k => if k = 0 then AIClassifier.AICall.ok
        [{ index := some 0, group := some "body" }]
      else AIClassifier.AICall.ok [])
    0 [] [] [] [{ index := some 0, group := some "body" }] []
    rfl rfl (by with_unfolding_all decide)
  refine ⟨?_, ?_, h.2 [((0 : Int), "body")] 1 "heuristic" (by decide)⟩
  · rw [h.1]
    with_unfolding_all decide
  · rw [h.1]

/-- C9: an exception on ANY provider call makes the loop return
immediately with the EMPTY label mapping — discarding the labels already
collected from earlier successful batches, which enter the theorem as the
arbitrary `labels0` — exactly one appended human-readable failure note,
and the remaining batches unprocessed.  The first clause covers an
exception on a batch's initial call; the second covers an exception on the
retry call issued after a partial first response; the third shows
`classify` surfaces any failed loop result as a normal return value (no
closing notes), so the caller never sees the exception; the last shows the
applier's lookup on the empty mapping yields the heuristic group for every
paragraph. -/
theorem ai_call_failure_fallback (oracle : Nat → AIClassifier.AICall)
    (batch : List AIClassifier.AIRow) (rest : List (List AIClassifier.AIRow))
    (k : Nat) (labels0 : List (Int × String)) (notes0 : List String)
    (log0 : List (List AIClassifier.AIRow)) (e : String) :
    (oracle k = AIClassifier.AICall.err e →
      AIClassifier.classifyLoop oracle (batch :: rest) k labels0 notes0 log0
        = { labels := [], notes := notes0 ++ [AIClassifier.failNote e],
            callLog := log0 ++ [batch], calls := k + 1, ok := false }) ∧
      (∀ items : List AIClassifier.RawItem,
        oracle k = AIClassifier.AICall.ok items →
        AIClassifier.missingOf batch (AIClassifier.collectValidLabels items) ≠ [] →
        oracle (k + 1) = AIClassifier.AICall.err e →
        AIClassifier.classifyLoop oracle (batch :: rest) k labels0 notes0 log0
          = { labels := [], notes := notes0 ++ [AIClassifier.failNote e],
              callLog := log0 ++ [batch, AIClassifier.missingRowsOf batch
                (AIClassifier.missingOf batch (AIClassifier.collectValidLabels items))],
              calls := k + 2, ok := false }) ∧
      (∀ (cfg : AIClassifier.AIConfig) (paragraphs : List AIClassifier.AIRow)
          (provider : String),
        paragraphs.isEmpty = false →
        AIClassifier.resolveProvider cfg = some provider →
        (AIClassifier.classifyLoop oracle
            (chunkList cfg.batchSize paragraphs) 0 [] [] []).ok = false →
        AIClassifier.classify cfg oracle paragraphs
          = ((AIClassifier.classifyLoop oracle
                (chunkList cfg.batchSize paragraphs) 0 [] [] []).labels,
             (AIClassifier.classifyLoop oracle
                (chunkList cfg.batchSize paragraphs) 0 [] [] []).notes,
             (AIClassifier.classifyLoop oracle
                (chunkList cfg.batchSize paragraphs) 0 [] [] []).callLog)) ∧
      (∀ (i : Int) (fallback : String),
        FormatApplier.aiGet [] i fallback = fallback) := by
  refine ⟨?_, ?_, ?_, fun i fallback => rfl⟩
  · intro h1
    rw [AIClassifier.classifyLoop, h1]
  · intro items h1 hmiss h2
    have hrows := AIClassifier.missingRowsOf_ne_nil batch
      (AIClassifier.collectValidLabels items) hmiss
    rw [AIClassifier.classifyLoop, h1]
    dsimp only
    rw [if_neg (show ¬ (AIClassifier.missingOf batch
        (AIClassifier.collectValidLabels items)).isEmpty = true from by
      simpa [List.isEmpty_iff] using hmiss)]
    rw [if_neg (show ¬ (AIClassifier.missingRowsOf batch (AIClassifier.missingOf batch
        (AIClassifier.collectValidLabels items))).isEmpty = true from by
      simpa [List.isEmpty_iff] using hrows)]
    rw [h2]
  · intro cfg paragraphs provider hp hr hok
    unfold AIClassifier.classify
    rw [hp, hr]
    simp [hok]

/-- Witness for C9, exercising all failure sites: an invocation whose
first call labels only one of two rows and whose retry call raises 連線逾時
— the batch's partial labels and the pre-existing labels (index 5) are
discarded and only the failure note is kept; an invocation whose very
first call raises likewise returns the empty mapping at an arbitrary call
counter; classify surfaces the failed retry as a normal return value; and
the empty mapping sends every index to its heuristic fallback. -/
theorem ai_call_failure_fallback_witness :
    (AIClassifier.classifyLoop
        (fun k => if k = 0 then AIClassifier.AICall.ok
            [{ index := some 0, group := some "body" }]
          else AIClassifier.AICall.err "連線逾時")
        [[{ index := 0 }, { index := 1 }]] 0 [((5 : Int), "body")] [] []).labels = [] ∧
      (AIClassifier.classifyLoop
        (fun k => if k = 0 then AIClassifier.AICall.ok
            [{ index := some 0, group := some "body" }]
          else AIClassifier.AICall.err "連線逾時")
        [[{ index := 0 }, { index := 1 }]] 0 [((5 : Int), "body")] [] []).notes
        = [AIClassifier.failNote "連線逾時"] ∧
      (AIClassifier.classifyLoop (fun _ => AIClassifier.AICall.err "boom")
        [[{ index := 2 }]] 3 [((5 : Int), "body")] [] []).labels = [] ∧
      AIClassifier.classify { provider := "openai", openaiApiKey := "k" }
          (fun k => if k = 0 then AIClassifier.AICall.ok
              [{ index := some 0, group := some "body" }]
            else AIClassifier.AICall.err "連線逾時")
          [{ index := 0 }, { index := 1 }]
        = ([], [AIClassifier.failNote "連線逾時"],
           [[{ index := 0 }, { index := 1 }], [{ index := 1 }]]) ∧
      FormatApplier.aiGet [] 7 "body" = "body" := by
  have hB := (ai_call_failure_fallback
      (fun k => if k = 0 then AIClassifier.AICall.ok
          [{ index := some 0, group := some "body" }]
        else AIClassifier.AICall.err "連線逾時")
      [{ index := 0 }, { index := 1 }] [] 0 [((5 : Int), "body")] [] [] "連線逾時").2.1
    [{ index := some 0, group := some "body" }] rfl (by with_unfolding_all decide) rfl
  have hB0 := (ai_call_failure_fallback
      (fun k => if k = 0 then AIClassifier.AICall.ok
          [{ index := some 0, group := some "body" }]
        else AIClassifier.AICall.err "連線逾時")
      [{ index := 0 }, { index := 1 }] [] 0 [] [] [] "連線逾時").2.1
    [{ index := some 0, group := some "body" }] rfl (by with_unfolding_all decide) rfl
  have hA := (ai_call_failure_fallback (fun _ => AIClassifier.AICall.err "boom")
      [{ index := 2 }] [] 3 [((5 : Int), "body")] [] [] "boom").1 rfl
  have hchunk : chunkList ({ provider := "openai", openaiApiKey := "k" } :
        AIClassifier.AIConfig).batchSize
      [({ index := 0 } : AIClassifier.AIRow), { index := 1 }]
      = [[({ index := 0 } : AIClassifier.AIRow), { index := 1 }]] := by
    simp [chunkList]
  have hC := (ai_call_failure_fallback
      (fun k => if k = 0 then AIClassifier.AICall.ok
          [{ index := some 0, group := some "body" }]
        else AIClassifier.AICall.err "連線逾時")
      [{ index := 0 }, { index := 1 }] [] 0 [] [] [] "連線逾時").2.2.1
    { provider := "openai", openaiApiKey := "k" }
    [{ index := 0 }, { index := 1 }] "openai"
    rfl (by simp [AIClassifier.resolveProvider]) (by rw [hchunk, hB0])
  refine ⟨by rw [hB], by rw [hB]; with_unfolding_all decide, by rw [hA], ?_,
    (ai_call_failure_fallback (fun _ => AIClassifier.AICall.err "boom")
      [{ index := 2 }] [] 3 [] [] [] "boom").2.2.2 7 "body"⟩
  rw [hC, hchunk, hB0]
  with_unfolding_all decide

end ThesisFormatter
